/-
Verification of the Jira ingestion pipeline core
(issue repository, connected-component traversal, issue-type factory,
keyword matcher, prompt/template engine).

Shallow embedding of the Python sources:
  * src/model/jira_models.py      — pydantic data model
  * src/agent_utils/issue_tools.py — IssueRepository, JiraIssueService
  * src/agent_utils/keyword_search.py — keyword_search
  * src/jira_tools/factory.py     — JiraFactory.create_issue
  * src/ai/prompt_store.py        — PromptStore resolution engine

Conventions of the embedding:
  * Python exceptions are modelled with Except; the error string carries the
    exception kind and an abridged message (apostrophes and f-string braces of
    the original messages are omitted).
  * Python datetimes are carried as opaque strings; pydantic only requires
    their presence here.
  * External collaborators (the Jira REST fetch, the LLM keyword-extraction
    call, the rapidfuzz similarity ratio) are parameters of the embedded
    functions, as the spec treats them as opaque collaborator interfaces.
-/
import Mathlib

/-! # Data model (src/model/jira_models.py) -/

/-- `JiraUser` (jira_models.py): displayName and emailAddress are required
strings; pydantic rejects `None` for them. -/
structure JiraUser where
  displayName : String
  emailAddress : String
deriving DecidableEq

/-- `JiraWorklog` (jira_models.py). `started` is a datetime carried as a
string in this embedding. -/
structure JiraWorklog where
  started : String
  timeSpent : String
  timeSpentSeconds : Int
deriving DecidableEq

/-- `Author` (jira_models.py): author of an attachment. -/
structure Author where
  accountId : String
  displayName : String
deriving DecidableEq

/-- `JiraAttachement` (jira_models.py). `created` (datetime) and `content`
(HttpUrl) are carried as strings. `author` is a required field. -/
structure JiraAttachement where
  id : String
  filename : String
  author : Author
  created : String
  size : Int
  mimeType : String
  content : String
deriving DecidableEq

/-- `JiraBaseIssue` (jira_models.py). `created`, `updated` and `url` are
carried as strings. `parent_key` is not a field of the Python base class but
of the subclasses `JiraSubtask`/`JiraTask`; the traversal in issue_tools.py
probes for it dynamically with `hasattr`, which this embedding models as an
`Option` on the base record (`none` = attribute absent or `None`). -/
structure JiraBaseIssue where
  key : String
  summary : String
  description : String
  status : String
  statusCategory : String
  project : String
  issue_type : String
  subtasks : List String
  assignee : Option JiraUser
  reporter : Option JiraUser
  created : String
  updated : String
  timeSpentSeconds : Int
  url : String
  worklogs : List JiraWorklog
  attachments : List JiraAttachement
  parent_key : Option String
deriving DecidableEq

/-! # Issue repository (src/agent_utils/issue_tools.py, IssueRepository) -/

/-- `IssueRepository.__init__`: the dict comprehension
`{issue.key: issue for issue in issues}`.  A Python dict comprehension
keeps, for each key, the value written last, which the left fold mirrors. -/
def issue_map (issues : List JiraBaseIssue) (issue_key : String) : Option JiraBaseIssue :=
  issues.foldl (fun acc i => if i.key = issue_key then some i else acc) none

/-- `JiraIssueService.get_issue_by_key`: raises `IssueNotFoundException`
when the repository lookup misses. -/
def get_issue_by_key (issues : List JiraBaseIssue) (issue_key : String) :
    Except String JiraBaseIssue :=
  match issue_map issues issue_key with
  | Option.none => Except.error ("IssueNotFoundException: Issue with key " ++ issue_key ++ " not found.")
  | some issue => Except.ok issue

/-! # Connected-component traversal (issue_tools.py, get_connected_issues) -/

/-- The keys enqueued from one issue, in source order: first the parent key
(guarded by Python truthiness — `if hasattr(...) and current_issue.parent_key`
and `if parent_key`, so `None` and `""` are skipped), then every subtask key
(no truthiness guard on those). -/
def linkKeys (i : JiraBaseIssue) : List String :=
  (match i.parent_key with
   | some p => if p = "" then [] else [p]
   | Option.none => []) ++ i.subtasks

/-- The enqueue loop of `get_connected_issues`: each candidate key is added to
the queue and marked seen only if it is not already in the visited set
(marking happens at enqueue time). -/
def enqueueLinks : List String → List String → List String → List String × List String
  | [], queue, seen => (queue, seen)
  | k :: ks, queue, seen =>
    if k ∈ seen then enqueueLinks ks queue seen
    else enqueueLinks ks (queue ++ [k]) (k :: seen)

/-- All keys that can ever be enqueued by the traversal over a given batch
(used only for the termination measure). -/
def keyUniverse : List JiraBaseIssue → List String
  | [] => []
  | i :: rest => linkKeys i ++ keyUniverse rest

/-- The `while queue:` loop of `get_connected_issues`: pop the front key,
skip it when the repository lookup misses, otherwise append the issue to the
output and enqueue its not-yet-seen parent/subtask keys. -/
def bfsLoop (issues : List JiraBaseIssue) (queue seen : List String)
    (out : List JiraBaseIssue) : List JiraBaseIssue :=
  match queue with
  | [] => out
  | k :: rest =>
    match h : issue_map issues k with
    | Option.none => bfsLoop issues rest seen out
    | some i =>
      let qs := enqueueLinks (linkKeys i) rest seen
      bfsLoop issues qs.1 qs.2 (out ++ [i])
termination_by 2 * (((keyUniverse issues).filter (fun x => !(decide (x ∈ seen)))).length) + queue.length
decreasing_by
  · simp only [List.length_cons]
    omega
  · -- the popped key resolved to issue `i`; its links lie inside `keyUniverse`
    have hmem : i ∈ issues := by
      have H : ∀ (l : List JiraBaseIssue) (acc : Option JiraBaseIssue) (j : JiraBaseIssue),
          l.foldl (fun a x => if x.key = k then some x else a) acc = some j →
          acc = some j ∨ j ∈ l := by
        intro l
        induction l with
        | nil => intro acc j hf; exact Or.inl hf
        | cons x xs ih =>
          intro acc j hf
          rcases ih _ _ hf with h1 | h2
          · dsimp only at h1
            by_cases hx : x.key = k
            · rw [if_pos hx] at h1
              cases h1
              exact Or.inr (List.mem_cons_self _ _)
            · rw [if_neg hx] at h1
              exact Or.inl h1
          · exact Or.inr (List.mem_cons_of_mem _ h2)
      rcases H issues Option.none i h with h1 | h2
      · cases h1
      · exact h2
    have hlinks : ∀ x ∈ linkKeys i, x ∈ keyUniverse issues := by
      intro x hx
      clear h
      induction issues with
      | nil => cases hmem
      | cons j js ih =>
        rcases List.mem_cons.mp hmem with hj | hj
        · subst hj
          exact List.mem_append_left _ hx
        · exact List.mem_append_right _ (ih hj)
    -- monotone length for filters with pointwise-implied predicates
    have Hmono : ∀ (l : List String) (p q : String → Bool),
        (∀ x, p x = true → q x = true) →
        (l.filter p).length ≤ (l.filter q).length := by
      intro l p q hpq
      induction l with
      | nil => simp
      | cons x xs ih =>
        by_cases hp : p x = true
        · have hq := hpq x hp
          simp [List.filter, hp, hq]
          omega
        · have hp' : p x = false := by
            cases hpx : p x
            · rfl
            · exact absurd hpx hp
          cases hqx : q x <;> simp [List.filter, hp', hqx] <;> omega
    -- adding a fresh universe member to the seen set strictly shrinks the filter
    have Hf : ∀ (U : List String) (a : String) (sn : List String), a ∈ U → a ∉ sn →
        (U.filter (fun x => !(decide (x ∈ a :: sn)))).length <
          (U.filter (fun x => !(decide (x ∈ sn)))).length := by
      intro U a sn haU hasn
      induction U with
      | nil => cases haU
      | cons u us ih =>
        by_cases hu : u = a
        · subst hu
          have h1 : (fun x => !(decide (x ∈ u :: sn))) u = false := by simp
          have h2 : (fun x => !(decide (x ∈ sn))) u = true := by simp [hasn]
          simp only [List.filter, h1, h2]
          have hm : ((us.filter (fun x => !(decide (x ∈ u :: sn)))).length ≤
              (us.filter (fun x => !(decide (x ∈ sn)))).length) := by
            apply Hmono
            intro x hx
            simp only [Bool.not_eq_true', decide_eq_false_iff_not, List.mem_cons,
              not_or] at hx ⊢
            exact hx.2
          simp only [List.length_cons]
          omega
        · have haU' : a ∈ us := by
            rcases List.mem_cons.mp haU with h1 | h1
            · exact absurd h1.symm hu
            · exact h1
          have hsame : (!(decide (u ∈ a :: sn))) = (!(decide (u ∈ sn))) := by
            simp [List.mem_cons, hu]
          cases hus : (!(decide (u ∈ sn))) <;>
            simp only [List.filter, hsame, hus] <;>
            [skip; simp only [List.length_cons]] <;>
            have := ih haU' <;> omega
    -- the enqueue loop never increases the combined measure
    have Hstep : ∀ (links q sn : List String), (∀ x ∈ links, x ∈ keyUniverse issues) →
        2 * (((keyUniverse issues).filter
              (fun x => !(decide (x ∈ (enqueueLinks links q sn).2)))).length) +
            (enqueueLinks links q sn).1.length ≤
          2 * (((keyUniverse issues).filter (fun x => !(decide (x ∈ sn)))).length) +
            q.length := by
      intro links
      induction links with
      | nil => intro q sn _; simp [enqueueLinks]
      | cons a as ih =>
        intro q sn hU
        by_cases ha : a ∈ sn
        · rw [enqueueLinks, if_pos ha]
          exact ih q sn (fun x hx => hU x (List.mem_cons_of_mem _ hx))
        · rw [enqueueLinks, if_neg ha]
          have h1 := ih (q ++ [a]) (a :: sn) (fun x hx => hU x (List.mem_cons_of_mem _ hx))
          have h2 := Hf (keyUniverse issues) a sn (hU a (List.mem_cons_self _ _)) ha
          simp only [List.length_append, List.length_cons, List.length_nil] at h1
          omega
    have := Hstep (linkKeys i) rest seen hlinks
    simp only [List.length_cons]
    omega

/-- The sort relation of `connected_issue_objects.sort(key=lambda issue: issue.key)`. -/
def keyLe (a b : JiraBaseIssue) : Prop := a.key ≤ b.key

instance : DecidableRel keyLe := fun a b => inferInstanceAs (Decidable (a.key ≤ b.key))

instance : IsTotal JiraBaseIssue keyLe := ⟨fun a b => le_total a.key b.key⟩

instance : IsTrans JiraBaseIssue keyLe := ⟨fun _ _ _ hab hbc => le_trans hab hbc⟩

/-- `JiraIssueService.get_connected_issues`: raises `IssueNotFoundException`
for a missing starting key; otherwise runs the breadth-first traversal seeded
with the starting issue key and returns the result sorted by issue key. -/
def get_connected_issues (issues : List JiraBaseIssue) (issue_key : String) :
    Except String (List JiraBaseIssue) := do
  let starting_issue ← get_issue_by_key issues issue_key
  Except.ok (List.insertionSort keyLe
    (bfsLoop issues [starting_issue.key] [starting_issue.key] []))

/-- One traversal edge: key `a` resolves in the repository and `b` is among
the parent/subtask keys the loop enqueues from it. -/
def edgeStep (issues : List JiraBaseIssue) (a b : String) : Prop :=
  ∃ i, issue_map issues a = some i ∧ b ∈ linkKeys i

/-- Reachability along traversal edges starting from `start`. -/
inductive Reaches (issues : List JiraBaseIssue) (start : String) : String → Prop
  | refl : Reaches issues start start
  | tail {b c : String} : Reaches issues start b → edgeStep issues b c →
      Reaches issues start c

/-! # Keyword matcher (src/agent_utils/keyword_search.py) -/

/-- Python `str.lower()` (ASCII model). -/
def pyLower (s : String) : String := String.mk (s.data.map Char.toLower)

/-- Python `str.upper()` (ASCII model). -/
def pyUpper (s : String) : String := String.mk (s.data.map Char.toUpper)

/-- A regex word character `\w` (ASCII model: letters, digits, underscore). -/
def isWordChar (c : Char) : Bool := c.isAlpha || c.isDigit || c = '_'

/-- The token extraction `re.findall(r"\b\w[\w-]*\b", text.lower())` of
`is_token_fuzzy_match`: maximal runs of word/hyphen characters, with leading
and trailing hyphens stripped (a token must start and end on a word
character), empty runs discarded. -/
def fuzzyTokens (text : String) : List String :=
  (((pyLower text).data.splitOnP (fun c => !(isWordChar c || c = '-'))).map
    (fun run =>
      (((run.dropWhile (fun c => c = '-')).reverse.dropWhile (fun c => c = '-')).reverse))).filterMap
    (fun tok => if tok = [] then Option.none else some (String.mk tok))

/-- `is_token_fuzzy_match`: the external `rapidfuzz.fuzz.ratio` comparison
against the threshold is abstracted as the collaborator predicate `ratioGE`
(`ratioGE a b = true` models `fuzz.ratio(a, b) >= threshold`). -/
def is_token_fuzzy_match (ratioGE : String → String → Bool) (text keyword : String) : Bool :=
  (fuzzyTokens text).any (fun token => ratioGE (pyLower keyword) token)

/-- The `strict` branch of `is_match`:
`re.search(rf"(?<!\w){re.escape(keyword)}(?!\w)", text, re.IGNORECASE)` —
some occurrence of the (escaped, hence literal) keyword, case-insensitively,
with no word character immediately before or after it. -/
def strictMatch (text keyword : String) : Bool :=
  let t := (pyLower text).data
  let k := (pyLower keyword).data
  (List.range (t.length + 1)).any (fun i =>
    decide ((t.drop i).take k.length = k) &&
    (decide (i = 0) || !(isWordChar (t.getD (i - 1) ' '))) &&
    (decide (i + k.length = t.length) || !(isWordChar (t.getD (i + k.length) ' '))))

/-- The `contains` branch of `is_match`: `keyword.lower() in text.lower()`. -/
def containsMatch (text keyword : String) : Bool :=
  decide ((pyLower keyword).data <:+: (pyLower text).data)

/-- The Python value `getattr(issue, cat, "")` hands to `is_match`: either a
string, or a non-string object (list, user object, datetime, int, HttpUrl),
recorded by the name of its runtime type for the error message. -/
inductive PyAttr where
  | pyStr (s : String)
  | pyObj (descr : String)
deriving DecidableEq

/-- `is_match` (keyword_search.py): dispatch on the `match_mode` string; an
unrecognized mode raises `ValueError`.  A non-string `text` raises inside the
selected branch — `re.search` rejects it in `strict` mode, and
`text.lower()` fails in `fuzzy` and `contains` modes. -/
def is_match (match_mode : String) (ratioGE : String → String → Bool)
    (text : PyAttr) (keyword : String) : Except String Bool :=
  if match_mode = "strict" then
    match text with
    | PyAttr.pyStr s => Except.ok (strictMatch s keyword)
    | PyAttr.pyObj d =>
      Except.error ("TypeError: expected string or bytes-like object, got " ++ d)
  else if match_mode = "fuzzy" then
    match text with
    | PyAttr.pyStr s => Except.ok (is_token_fuzzy_match ratioGE s keyword)
    | PyAttr.pyObj d =>
      Except.error ("AttributeError: " ++ d ++ " object has no attribute lower")
  else if match_mode = "contains" then
    match text with
    | PyAttr.pyStr s => Except.ok (containsMatch s keyword)
    | PyAttr.pyObj d =>
      Except.error ("AttributeError: " ++ d ++ " object has no attribute lower")
  else Except.error ("ValueError: Unknown match_mode: " ++ match_mode)

/-- `getattr(issue, cat, "")`: the string attributes of `JiraBaseIssue` read
as strings; `subtasks`/`worklogs`/`attachments` are lists, `assignee` and
`reporter` are `JiraUser` objects or `None`, `created`/`updated` are
datetimes, `timeSpentSeconds` is an int and `url` an HttpUrl — all
non-strings.  A `parent_key` attribute, when the subclass carries one, is a
string; `none` here models the attribute being absent (the base-class case),
which reads as the `""` default.  Any unknown name also yields `""`. -/
def getAttrRaw (issue : JiraBaseIssue) (cat : String) : PyAttr :=
  if cat = "key" then PyAttr.pyStr issue.key
  else if cat = "summary" then PyAttr.pyStr issue.summary
  else if cat = "description" then PyAttr.pyStr issue.description
  else if cat = "status" then PyAttr.pyStr issue.status
  else if cat = "statusCategory" then PyAttr.pyStr issue.statusCategory
  else if cat = "project" then PyAttr.pyStr issue.project
  else if cat = "issue_type" then PyAttr.pyStr issue.issue_type
  else if cat = "subtasks" then PyAttr.pyObj "list"
  else if cat = "assignee" then
    PyAttr.pyObj (match issue.assignee with
      | some _ => "JiraUser"
      | Option.none => "NoneType")
  else if cat = "reporter" then
    PyAttr.pyObj (match issue.reporter with
      | some _ => "JiraUser"
      | Option.none => "NoneType")
  else if cat = "created" then PyAttr.pyObj "datetime"
  else if cat = "updated" then PyAttr.pyObj "datetime"
  else if cat = "timeSpentSeconds" then PyAttr.pyObj "int"
  else if cat = "url" then PyAttr.pyObj "Url"
  else if cat = "worklogs" then PyAttr.pyObj "list"
  else if cat = "attachments" then PyAttr.pyObj "list"
  else if cat = "parent_key" then
    PyAttr.pyStr ((issue.parent_key).getD "")
  else PyAttr.pyStr ""

/-- Short-circuiting `any(...)` over a generator whose body may raise. -/
def anyE (p : α → Except ε Bool) : List α → Except ε Bool
  | [] => Except.ok false
  | x :: xs => do
    if (← p x) then Except.ok true else anyE p xs

/-- Short-circuiting `all(...)` over a generator whose body may raise. -/
def allE (p : α → Except ε Bool) : List α → Except ε Bool
  | [] => Except.ok true
  | x :: xs => do
    if (← p x) then allE p xs else Except.ok false

/-- A list comprehension `[x for x in l if p(x)]` whose filter may raise. -/
def filterE (p : α → Except ε Bool) : List α → Except ε (List α)
  | [] => Except.ok []
  | x :: xs => do
    let b ← p x
    let rest ← filterE p xs
    Except.ok (if b then x :: rest else rest)

/-- `keyword_search` (keyword_search.py, lines 93-107).  The two external
collaborators are passed in as already-performed effects: `extracted` is the
outcome of `get_keywords(query)` (the LLM extraction call) and `fetched` the
outcome of `JiraHandler().fetch_and_parse_issues(...)`.  The source wraps
neither call in a try/except, so their failures propagate, as does a
`ValueError` from `is_match` on an unknown mode. -/
def keyword_search (extracted : Except String (List String))
    (fetched : Except String (List JiraBaseIssue))
    (category : List String) (match_mode : String)
    (ratioGE : String → String → Bool) :
    Except String (List JiraBaseIssue) := do
  let keywords ← extracted
  let issues ← fetched
  filterE (fun issue =>
    allE (fun kw =>
      anyE (fun cat => is_match match_mode ratioGE (getAttrRaw issue cat) kw) category)
      keywords) issues

/-! # Issue type resolver (src/jira_tools/factory.py) -/

/-- A `{"name": ...}`-shaped sub-object (status category / project / issue
type carrier). -/
structure RawNamed where
  name : String
deriving DecidableEq

/-- The raw `status` sub-object: `status.name` and `status.statusCategory.name`
are accessed directly by `parse_fields`. -/
structure RawStatus where
  name : String
  statusCategory : RawNamed
deriving DecidableEq

/-- The raw `issuetype` sub-object: a type name plus the subtask flag bit. -/
structure RawIssueType where
  name : String
  subtask : Bool
deriving DecidableEq

/-- A raw user object (assignee / reporter); both fields can be absent or
`None`, which `get_field` treats together with `""`. -/
structure RawUser where
  displayName : Option String
  emailAddress : Option String
deriving DecidableEq

/-- A raw attachment author object. -/
structure RawAuthor where
  accountId : Option String
  displayName : Option String
deriving DecidableEq

/-- A raw worklog entry (all three fields accessed directly). -/
structure RawWorklogEntry where
  started : String
  timeSpent : String
  timeSpentSeconds : Int
deriving DecidableEq

/-- The raw `worklog` container; `parse_worklogs` probes it with
`hasattr(worklog_obj, "worklogs")`, and the `{}` default supplied by
`get_field` has no such attribute (modelled as `none`). -/
structure RawWorklogContainer where
  worklogs : List RawWorklogEntry
deriving DecidableEq

/-- A raw attachment object (fields accessed directly in the comprehension). -/
structure RawAttachment where
  id : String
  filename : String
  author : Option RawAuthor
  created : String
  size : Int
  mimeType : String
  content : String
deriving DecidableEq

/-- The raw `parent` sub-object: `parent.key` and `parent.fields.summary`. -/
structure RawParent where
  key : String
  parent_fields_summary : String
deriving DecidableEq

/-- The raw `fields` object of one issue payload.  `Option.none` models a
field that is absent or `None` (Python distinguishes the two, but every use
here goes through `get_field`, a truthiness test, or both, which identify
them). -/
structure RawFields where
  summary : Option String
  description : Option String
  status : Option RawStatus
  project : Option RawNamed
  issuetype : Option RawIssueType
  assignee : Option RawUser
  reporter : Option RawUser
  created : Option String
  updated : Option String
  timespent : Option Int
  worklog : Option RawWorklogContainer
  attachment : Option (List RawAttachment)
  parent : Option RawParent
  fixVersions : Option (List String)
deriving DecidableEq

/-- One raw issue payload: the issue key and the canonical `self` URL sit
beside `fields` and are accessed directly (`issue.key` / `issue['key']`,
`issue.self` / `issue['self']`); an absent one raises. -/
structure RawIssue where
  key : Option String
  selfUrl : Option String
  fields : RawFields
deriving DecidableEq

/-- `JiraFactory.get_field` for string-valued fields:
`value if value not in (None, "") else default` after the attribute/mapping
lookup (an absent field reads as the default). -/
def get_field_str (value : Option String) (dflt : Option String) : Option String :=
  match value with
  | Option.none => dflt
  | some s => if s = "" then dflt else some s

/-- `JiraFactory.get_field` for non-string fields: only `None` (or absence)
falls back to the default — an object, list or number never equals `""`. -/
def get_field_obj (value : Option α) (dflt : Option α) : Option α :=
  match value with
  | Option.none => dflt
  | some v => some v

/-- `JiraFactory.parse_user`: a falsy user resolves to `None`; a present user
builds a pydantic `JiraUser`, whose required `displayName` raises a
`ValidationError` when it resolves to `None`.  `emailAddress` falls back to
the `"No person assigned."` default. -/
def parse_user (user : Option RawUser) : Except String (Option JiraUser) :=
  match user with
  | Option.none => Except.ok Option.none
  | some u =>
    match get_field_str u.displayName Option.none with
    | Option.none => Except.error "ValidationError: JiraUser.displayName is required"
    | some d =>
      Except.ok (some
        { displayName := d
          emailAddress := (get_field_str u.emailAddress (some "No person assigned.")).getD "No person assigned." })

/-- `JiraFactory.parse_author`: like `parse_user`, but both `accountId` and
`displayName` are required by the pydantic `Author` model. -/
def parse_author (author : Option RawAuthor) : Except String (Option Author) :=
  match author with
  | Option.none => Except.ok Option.none
  | some a =>
    match get_field_str a.accountId Option.none, get_field_str a.displayName Option.none with
    | some acc, some d => Except.ok (some { accountId := acc, displayName := d })
    | _, _ => Except.error "ValidationError: Author.accountId and Author.displayName are required"

/-- `JiraFactory.parse_worklogs`: the `{}` default supplied by `get_field`
has no `worklogs` attribute, so an absent container yields `[]`. -/
def parse_worklogs (w : Option RawWorklogContainer) : List JiraWorklog :=
  match w with
  | Option.none => []
  | some c => c.worklogs.map (fun e =>
      { started := e.started, timeSpent := e.timeSpent, timeSpentSeconds := e.timeSpentSeconds })

/-- The attachment comprehension of `parse_fields`: a falsy (absent or empty)
`attachment` field yields `[]`; each present attachment builds a pydantic
`JiraAttachement`, whose required `author` raises a `ValidationError` when
`parse_author` resolves to `None`. -/
def parse_attachments (a : Option (List RawAttachment)) : Except String (List JiraAttachement) :=
  match a with
  | Option.none => Except.ok []
  | some [] => Except.ok []
  | some l =>
    l.mapM (fun att => do
      match (← parse_author att.author) with
      | Option.none => Except.error "ValidationError: JiraAttachement.author is required"
      | some au =>
        Except.ok { id := att.id, filename := att.filename, author := au,
                    created := att.created, size := att.size,
                    mimeType := att.mimeType, content := att.content })

/-- The keyword-argument dictionary built by `parse_fields`; fields whose
value can be `None` at this point stay optional — pydantic validates them
only when a model is constructed from the dictionary. -/
structure BaseKwargs where
  key : String
  summary : Option String
  description : String
  status : String
  statusCategory : String
  project : String
  issue_type : String
  assignee : Option JiraUser
  reporter : Option JiraUser
  created : Option String
  updated : Option String
  timeSpentSeconds : Int
  url : String
  worklogs : List JiraWorklog
  attachments : List JiraAttachement
deriving DecidableEq

/-- `parse_fields` (factory.py, lines 115-179), in the evaluation order of
the Python dict literal.  `status`, `project` and `issuetype` are read back
through `get_field` with no default and then dereferenced (`.name`), so their
absence raises an `AttributeError` — only `description`, `timespent`,
`worklog` and `attachment` carry defaults, and `assignee`/`reporter`
degrade to `None`. -/
def parse_fields (issue : RawIssue) : Except String BaseKwargs := do
  let issue_fields := issue.fields
  let key ← match issue.key with
    | Option.none => Except.error "AttributeError: issue has no key"
    | some k => Except.ok k
  let summary := get_field_str issue_fields.summary Option.none
  let description := (get_field_str issue_fields.description (some "No description")).getD "No description"
  let status ← match get_field_obj issue_fields.status Option.none with
    | Option.none => Except.error "AttributeError: NoneType has no attribute name (status)"
    | some st => Except.ok st
  let project ← match get_field_obj issue_fields.project Option.none with
    | Option.none => Except.error "AttributeError: NoneType has no attribute name (project)"
    | some pr => Except.ok pr
  let issuetype ← match get_field_obj issue_fields.issuetype Option.none with
    | Option.none => Except.error "AttributeError: NoneType has no attribute name (issuetype)"
    | some it => Except.ok it
  let assignee ← parse_user (get_field_obj issue_fields.assignee Option.none)
  let reporter ← parse_user (get_field_obj issue_fields.reporter Option.none)
  let created := get_field_str issue_fields.created Option.none
  let updated := get_field_str issue_fields.updated Option.none
  let timeSpentSeconds := (get_field_obj issue_fields.timespent Option.none).getD 0
  let url ← match issue.selfUrl with
    | Option.none => Except.error "AttributeError: issue has no self url"
    | some u => Except.ok u
  let worklogs := parse_worklogs (get_field_obj issue_fields.worklog Option.none)
  let attachments ← parse_attachments issue_fields.attachment
  Except.ok
    { key := key, summary := summary, description := description,
      status := status.name, statusCategory := status.statusCategory.name,
      project := project.name, issue_type := issuetype.name,
      assignee := assignee, reporter := reporter,
      created := created, updated := updated,
      timeSpentSeconds := timeSpentSeconds, url := url,
      worklogs := worklogs, attachments := attachments }

/-- Construction of the pydantic base model from the kwargs dictionary:
`summary`, `created` and `updated` are required (non-Optional) fields, so a
`None` raises a `ValidationError` here.  `subtasks` is not part of
`base_kwargs` and keeps its `[]` default; the subclass-only attribute
`parent_key` is absent (`none`) on a plain base issue. -/
def mkBaseIssue (kw : BaseKwargs) : Except String JiraBaseIssue :=
  match kw.summary, kw.created, kw.updated with
  | some s, some c, some u =>
    Except.ok
      { key := kw.key, summary := s, description := kw.description,
        status := kw.status, statusCategory := kw.statusCategory,
        project := kw.project, issue_type := kw.issue_type,
        subtasks := [],
        assignee := kw.assignee, reporter := kw.reporter,
        created := c, updated := u,
        timeSpentSeconds := kw.timeSpentSeconds, url := kw.url,
        worklogs := kw.worklogs, attachments := kw.attachments,
        parent_key := Option.none }
  | _, _, _ => Except.error "ValidationError: summary, created and updated are required"

/-- The closed variant set produced by `create_issue` (the subclass the
returned object is an instance of, plus the subclass-specific fields).
`task` carries `parent_key` and `parent_description` as in `JiraTask`; the
`parent_summary=` keyword the factory passes is not a `JiraTask` field and is
silently dropped by pydantic (extra keyword arguments are ignored by
default), so `parent_description` is always `none` here. -/
inductive ParsedIssue where
  | subtaskIssue (base : JiraBaseIssue) (parent_key : String) (parent_summary : String)
  | epicIssue (base : JiraBaseIssue)
  | storyIssue (base : JiraBaseIssue)
  | taskIssue (base : JiraBaseIssue) (parent_key : Option String) (parent_description : Option String)
  | bugIssue (base : JiraBaseIssue) (fixed : List String)
  | baseIssue (base : JiraBaseIssue)
deriving DecidableEq

/-- The base-record view of any variant. -/
def ParsedIssue.base : ParsedIssue → JiraBaseIssue
  | .subtaskIssue b _ _ => b
  | .epicIssue b => b
  | .storyIssue b => b
  | .taskIssue b _ _ => b
  | .bugIssue b _ => b
  | .baseIssue b => b

/-- The warning event the fallback branch logs
(`logger.warning("Unhandled type of %s is: %s of Element: %s", issue.key,
fields.issuetype.name, fields.summary)`), keyed by the unrecognized type name
and the offending issue key. -/
structure UnhandledTypeWarning where
  unrecognizedType : String
  offendingKey : String
deriving DecidableEq

/-- `JiraFactory.create_issue` (factory.py, lines 181-221).  `isDict` selects
the mapping-shaped branch (`fields = issue['fields']`, `is_dict=True`).
After `parse_fields`, the leftover debug line `if '981' in issue.key: pass`
evaluates `issue.key` as an *attribute* access, which raises
`AttributeError` for every mapping-shaped payload (a `dict` has no `key`
attribute).  Then the `if/elif` dispatch runs in source order: subtask flag →
"Epic" → "Story"/"Innovation" → "Task" (parent keywords only when a parent is
present) → "Bug" (always reads `fixVersions`) → fallback to the base model
with a warning. -/
def create_issue (isDict : Bool) (issue : RawIssue) :
    Except String (ParsedIssue × List UnhandledTypeWarning) := do
  let fields := issue.fields
  let base_kwargs ← parse_fields issue
  if isDict then
    Except.error "AttributeError: dict object has no attribute key"
  else
    match fields.issuetype with
    | Option.none => Except.error "AttributeError: NoneType has no attribute subtask"
    | some issuetype =>
      if issuetype.subtask then
        match fields.parent with
        | Option.none => Except.error "AttributeError: fields has no parent"
        | some parent => do
          let b ← mkBaseIssue base_kwargs
          Except.ok (ParsedIssue.subtaskIssue b parent.key parent.parent_fields_summary, [])
      else if issuetype.name = "Epic" then do
        let b ← mkBaseIssue base_kwargs
        Except.ok (ParsedIssue.epicIssue b, [])
      else if issuetype.name = "Story" ∨ issuetype.name = "Innovation" then do
        let b ← mkBaseIssue base_kwargs
        Except.ok (ParsedIssue.storyIssue b, [])
      else if issuetype.name = "Task" then
        match fields.parent with
        | some parent => do
          let b ← mkBaseIssue base_kwargs
          Except.ok (ParsedIssue.taskIssue b (some parent.key) Option.none, [])
        | Option.none => do
          let b ← mkBaseIssue base_kwargs
          Except.ok (ParsedIssue.taskIssue b Option.none Option.none, [])
      else if issuetype.name = "Bug" then
        match fields.fixVersions with
        | Option.none => Except.error "AttributeError: fields has no fixVersions"
        | some fv => do
          let b ← mkBaseIssue base_kwargs
          Except.ok (ParsedIssue.bugIssue b fv, [])
      else do
        let b ← mkBaseIssue base_kwargs
        Except.ok (ParsedIssue.baseIssue b,
          [{ unrecognizedType := issuetype.name, offendingKey := base_kwargs.key }])

/-! # Template engine (src/ai/prompt_store.py) -/

/-- A Python value supplied as a prompt parameter: a string, a list of
symbolic keys, an integer (`min_keywords`/`max_keywords`), or `None`. -/
inductive PValue where
  | s (v : String)
  | intVal (n : Int)
  | listVal (items : List String)
  | null
deriving DecidableEq

/-- Python `str(value)` for the parameter values (`str(params[item])` in the
list branch).  The list form approximates Python repr of a string list
without the item quoting; no theorem depends on it. -/
def pvalueStr : PValue → String
  | PValue.s v => v
  | PValue.intVal n => toString n
  | PValue.listVal items => "[" ++ String.intercalate ", " items ++ "]"
  | PValue.null => "None"

/-- The exceptions of the resolution engine: `KeyError` (missing parameter
with no `"none"` fallback) and `ValueError` (unresolvable list item / cyclic
reference / unknown mode). -/
inductive PromptError where
  | keyError (msg : String)
  | valueError (msg : String)
deriving DecidableEq

/-- The parameter dictionary (`**params`): keys are unique in a Python kwargs
dict; lookup takes the first (only) binding. -/
def paramsGet (params : List (String × PValue)) (key : String) : Option PValue :=
  (params.find? (fun p => p.1 == key)).map (fun p => p.2)

/-- The class-level lookup tables (`ROLE`, `TASK`, `OBJECT`, ... — static
string-to-string dictionaries).  `getattr(cls, key.upper(), {})` finds the
table whose name is the upper-cased key, defaulting to the empty dict. -/
def lookupTable (tables : List (String × List (String × String))) (key : String) :
    List (String × String) :=
  ((tables.find? (fun t => t.1 == pyUpper key)).map (fun t => t.2)).getD []

/-- `dict.get` on one lookup table. -/
def tableGet (table : List (String × String)) (key : String) : Option String :=
  (table.find? (fun p => p.1 == key)).map (fun p => p.2)

/-- The element-wise resolution loop of the list branch of `_resolve_value`:
a list item resolves against the lookup table first, then against the
parameter set, else raises `ValueError`. -/
def resolveItems (lookup_dict : List (String × String)) (params : List (String × PValue))
    (key : String) : List String → Except PromptError (List String)
  | [] => Except.ok []
  | item :: rest =>
    match tableGet lookup_dict item with
    | some v => (resolveItems lookup_dict params key rest).map (fun r => v :: r)
    | Option.none =>
      match paramsGet params item with
      | some pv => (resolveItems lookup_dict params key rest).map (fun r => pvalueStr pv :: r)
      | Option.none =>
        Except.error (PromptError.valueError
          ("Value " ++ item ++ " in list for " ++ key ++ " not found"))

/-- The prose join of the list branch: one item as-is, two joined with
`" and "`, three or more joined with `", "` plus a trailing `", and "`
before the last, and `""` for an empty list. -/
def joinProse (resolved_items : List String) : String :=
  match resolved_items with
  | [a] => a
  | [a, b] => a ++ " and " ++ b
  | _ :: _ :: _ :: _ =>
    String.intercalate ", " resolved_items.dropLast ++ ", and " ++ resolved_items.getLast!
  | [] => ""

/-- `PromptStore._resolve_value` (prompt_store.py, lines 234-281): `None`
falls back to the table's `"none"` entry or raises `KeyError`; a list is
resolved element-wise and joined into prose; a scalar resolves against the
lookup table, then the parameter set, then passes through verbatim. -/
def resolve_value (tables : List (String × List (String × String)))
    (params : List (String × PValue)) (key : String) : Except PromptError PValue :=
  let lookup_dict := lookupTable tables key
  match paramsGet params key with
  | Option.none =>
    match tableGet lookup_dict "none" with
    | some v => Except.ok (PValue.s v)
    | Option.none =>
      Except.error (PromptError.keyError
        ("Parameter " ++ key ++ " not provided and no none fallback in " ++ pyUpper key))
  | some value =>
    match value with
    | PValue.null =>
      match tableGet lookup_dict "none" with
      | some v => Except.ok (PValue.s v)
      | Option.none =>
        Except.error (PromptError.keyError
          ("Parameter " ++ key ++ " not provided and no none fallback in " ++ pyUpper key))
    | PValue.listVal items =>
      (resolveItems lookup_dict params key items).map (fun r => PValue.s (joinProse r))
    | PValue.s sv =>
      match tableGet lookup_dict sv with
      | some tv => Except.ok (PValue.s tv)
      | Option.none =>
        match paramsGet params sv with
        | some pv => Except.ok pv
        | Option.none => Except.ok (PValue.s sv)
    | PValue.intVal n => Except.ok (PValue.intVal n)

/-- One segment of a Python format string: a literal character or a
`{name}` replacement field. -/
inductive FmtSeg where
  | lit (c : Char)
  | field (name : String)
deriving DecidableEq

/-- A character-level parser for `string.Formatter().parse`-style format
strings: `{{`/`}}` are brace escapes, `{...}` delimits a field name (the
templates of prompt_store.py use no format specs or conversions), and a
stray single `}` is skipped. -/
def parseFmt : List Char → List FmtSeg
  | [] => []
  | c :: rest =>
    if c = '\x7b' then
      if rest.head? = some '\x7b' then FmtSeg.lit '\x7b' :: parseFmt (rest.drop 1)
      else
        FmtSeg.field (String.mk (rest.takeWhile (fun d => !(d = '\x7d')))) ::
          parseFmt ((rest.dropWhile (fun d => !(d = '\x7d'))).drop 1)
    else if c = '\x7d' then
      if rest.head? = some '\x7d' then FmtSeg.lit '\x7d' :: parseFmt (rest.drop 1)
      else parseFmt rest
    else FmtSeg.lit c :: parseFmt rest
termination_by l => l.length
decreasing_by
  · simp only [List.length_cons, List.length_drop]
    omega
  · have h1 : ((rest.dropWhile (fun d => !(d = '\x7d'))).length ≤ rest.length) :=
      (List.dropWhile_sublist _).length_le
    simp only [List.length_cons, List.length_drop]
    omega
  · simp only [List.length_cons, List.length_drop]
    omega
  · simp only [List.length_cons]
    omega
  · simp only [List.length_cons]
    omega

/-- `PromptStore._extract_placeholders`: the set of non-empty field names of
a format string.  A Python `set` has no specified order; this embedding fixes
first-appearance order (`dedup`), on which no claim depends. -/
def extract_placeholders (text : String) : List String :=
  ((parseFmt text.data).filterMap (fun seg =>
    match seg with
    | FmtSeg.field n => if n = "" then Option.none else some n
    | FmtSeg.lit _ => Option.none)).dedup

/-- `text.format(**resolved_params)`: substitute every replacement field with
the Python `str()` of its resolved value.  The resolved dictionary covers all
placeholders whenever `_recursive_format` builds it, so the missing-key
branch (Python would raise `KeyError`) yields the empty string here. -/
def formatMap (text : String) (resolved : List (String × PValue)) : String :=
  String.mk ((parseFmt text.data).flatMap (fun seg =>
    match seg with
    | FmtSeg.lit c => [c]
    | FmtSeg.field n =>
      match (resolved.find? (fun p => p.1 == n)).map (fun p => p.2) with
      | some v => (pvalueStr v).data
      | Option.none => []))

mutual

/-- `PromptStore._recursive_format` (prompt_store.py, lines 283-319).  The
`fuel` argument models the Python interpreter recursion limit
(`sys.getrecursionlimit()`, ~1000); exhausting it is Python's
`RecursionError`.  A text without placeholders is returned as-is; otherwise
every placeholder is resolved (recursing into resolved string values that
contain `{`) and substituted. -/
def rfmtGo (tables : List (String × List (String × String)))
    (params : List (String × PValue)) :
    Nat → String → List String → Except PromptError String
  | 0, _, _ =>
    Except.error (PromptError.valueError "RecursionError: maximum recursion depth exceeded")
  | fuel + 1, text, seen =>
    let ph := extract_placeholders text
    if ph = [] then Except.ok text
    else
      match rfmtKeys tables params fuel ph seen with
      | Except.error e => Except.error e
      | Except.ok resolved => Except.ok (formatMap text resolved)
termination_by fuel _ _ => (fuel, 0)

/-- The `for key in placeholders:` loop of `_recursive_format`: a key already
on the active resolution path raises the cyclic-reference `ValueError`;
otherwise its value is resolved, recursed into when it is a string containing
`{` (with the key pushed onto a copy of the path), and recorded.  Siblings
are processed with the original path (`seen_keys.remove(key)`). -/
def rfmtKeys (tables : List (String × List (String × String)))
    (params : List (String × PValue)) :
    Nat → List String → List String → Except PromptError (List (String × PValue))
  | _, [], _ => Except.ok []
  | fuel, key :: rest, seen =>
    if key ∈ seen then
      Except.error (PromptError.valueError
        ("Cyclic reference detected for placeholder: " ++ key))
    else
      match resolve_value tables params key with
      | Except.error e => Except.error e
      | Except.ok v =>
        match
          (match v with
           | PValue.s sv =>
             if sv.data.contains '\x7b' then
               match rfmtGo tables params fuel sv (key :: seen) with
               | Except.error e => Except.error e
               | Except.ok r => Except.ok (PValue.s r)
             else Except.ok (PValue.s sv)
           | other => Except.ok other) with
        | Except.error e => Except.error e
        | Except.ok v2 =>
          match rfmtKeys tables params fuel rest seen with
          | Except.error e => Except.error e
          | Except.ok restR => Except.ok ((key, v2) :: restR)
termination_by fuel ks _ => (fuel, ks.length + 1)

end

/-- The public entry `_recursive_format(text, params)` with a fresh path set
and the interpreter recursion budget. -/
def recursive_format (tables : List (String × List (String × String)))
    (params : List (String × PValue)) (text : String) : Except PromptError String :=
  rfmtGo tables params 1000 text []

/-! # Concrete inputs used by the closed theorems below -/

deriving instance DecidableEq for Except


/-- A minimal issue record (only the traversal-relevant fields vary). -/
def mkIssue (k : String) (pk : Option String) (subs : List String) : JiraBaseIssue :=
  { key := k, summary := "summary of " ++ k, description := "d", status := "Open",
    statusCategory := "To Do", project := "DATA", issue_type := "Task",
    subtasks := subs, assignee := Option.none, reporter := Option.none,
    created := "2024-01-01", updated := "2024-01-02", timeSpentSeconds := 0,
    url := "https://jira/" ++ k, worklogs := [], attachments := [], parent_key := pk }

/-- Issue `A` of the cyclic pair: `A` lists `B` as parent. -/
def cycIssueA : JiraBaseIssue := mkIssue "A" (some "B") []

/-- Issue `B` of the cyclic pair: `B` lists `A` as parent (a parent loop). -/
def cycIssueB : JiraBaseIssue := mkIssue "B" (some "A") []

/-- An issue whose subtask list names a key absent from the repository. -/
def ghostIssue : JiraBaseIssue := mkIssue "A" Option.none ["GHOST"]

/-- First of two issues sharing the key `DUP-1`. -/
def dupFirst : JiraBaseIssue := mkIssue "DUP-1" Option.none []

/-- Second of two issues sharing the key `DUP-1` (differs in its subtasks). -/
def dupSecond : JiraBaseIssue := mkIssue "DUP-1" Option.none ["DUP-2"]

/-- An issue whose summary holds "alpha" and description holds "beta". -/
def alphaBetaIssue : JiraBaseIssue :=
  { mkIssue "M-1" Option.none [] with summary := "the alpha topic", description := "covers beta too" }

/-- A well-formed raw `fields` object for a Story payload; `description`,
`timespent`, `worklog`, `attachment`, `assignee` and `reporter` are absent. -/
def rawStoryFields : RawFields :=
  { summary := some "Hello", description := Option.none,
    status := some { name := "Open", statusCategory := { name := "To Do" } },
    project := some { name := "Proj" },
    issuetype := some { name := "Story", subtask := false },
    assignee := Option.none, reporter := Option.none,
    created := some "2024-01-01", updated := some "2024-01-02",
    timespent := Option.none, worklog := Option.none, attachment := Option.none,
    parent := Option.none, fixVersions := Option.none }

/-- A well-formed raw Story payload. -/
def rawStory : RawIssue :=
  { key := some "K-1", selfUrl := some "https://jira/K-1", fields := rawStoryFields }

/-- The raw Story payload with the `status` field absent. -/
def rawNoStatus : RawIssue :=
  { rawStory with fields := { rawStoryFields with status := Option.none } }

/-- The raw Story payload retyped with the unrecognized type name "Wish". -/
def rawWeird : RawIssue :=
  { rawStory with fields :=
      { rawStoryFields with issuetype := some { name := "Wish", subtask := false } } }

/-- A family of object-shaped raw payloads whose optional containers are all
absent (used to state the degradation-to-defaults behavior). -/
def rawDefaults (k s : String) (st : RawStatus) (pr : RawNamed) (it : RawIssueType)
    (cr up u : String) : RawIssue :=
  { key := some k, selfUrl := some u,
    fields :=
      { summary := some s, description := Option.none, status := some st,
        project := some pr, issuetype := some it,
        assignee := Option.none, reporter := Option.none,
        created := some cr, updated := some up,
        timespent := Option.none, worklog := Option.none, attachment := Option.none,
        parent := Option.none, fixVersions := Option.none } }

/-- The base record produced by `create_issue` on a `rawDefaults` payload
(all optional containers absent, hence all defaults). -/
def defaultsBase (k s : String) (st : RawStatus) (pr : RawNamed) (it : RawIssueType)
    (cr up u : String) : JiraBaseIssue :=
  { key := k, summary := s, description := "No description",
    status := st.name, statusCategory := st.statusCategory.name,
    project := pr.name, issue_type := it.name, subtasks := [],
    assignee := Option.none, reporter := Option.none,
    created := cr, updated := up,
    timeSpentSeconds := 0, url := u, worklogs := [], attachments := [],
    parent_key := Option.none }

/-- The base record `create_issue` produces for `rawWeird`. -/
def weirdBase : JiraBaseIssue :=
  { key := "K-1", summary := "Hello", description := "No description",
    status := "Open", statusCategory := "To Do", project := "Proj",
    issue_type := "Wish", subtasks := [], assignee := Option.none,
    reporter := Option.none, created := "2024-01-01", updated := "2024-01-02",
    timeSpentSeconds := 0, url := "https://jira/K-1", worklogs := [],
    attachments := [], parent_key := Option.none }

/-- Brace-freedom of a string (no `{` or `}` characters), as a boolean. -/
def braceFreeB (s : String) : Bool :=
  s.data.all (fun c => !(c = '\x7b') && !(c = '\x7d'))

/-! # Theorems -/

/-- C2 (counterexample): constructing the repository mapping from a batch
with two distinct issues sharing key "DUP-1" silently keeps only the later
one — the earlier issue is overwritten, contradicting the claim that
construction must not silently overwrite on duplicate keys. -/
theorem issue_map_overwrites_duplicate_key :
    issue_map [dupFirst, dupSecond] "DUP-1" = some dupSecond ∧
    dupSecond ≠ dupFirst ∧
    issue_map [dupFirst, dupSecond] "DUP-1" ≠ some dupFirst := by
  refine ⟨by decide, by decide, by decide⟩

/-- C2 (amended): repository construction is last-write-wins — the lookup
returns exactly the last issue of the batch bearing the requested key (and
hence maps each key to exactly one issue, whose `key` field is the key). -/
theorem issue_map_last_write_wins :
    (∀ (issues : List JiraBaseIssue) (k : String),
      issue_map issues k = issues.reverse.find? (fun i => i.key == k)) ∧
    (∀ (issues : List JiraBaseIssue) (k : String) (i : JiraBaseIssue),
      issue_map issues k = some i → i.key = k) := by
  have hfold : ∀ (k : String) (l : List JiraBaseIssue) (acc : Option JiraBaseIssue),
      l.foldl (fun a x => if x.key = k then some x else a) acc =
        (l.reverse.find? (fun i => i.key == k)).or acc := by
    intro k l
    induction l with
    | nil => intro acc; simp
    | cons x xs ih =>
      intro acc
      rw [List.foldl_cons, ih]
      simp only [List.reverse_cons, List.find?_append]
      rw [Option.or_assoc]
      congr 1
      by_cases hx : x.key = k
      · have hb : (x.key == k) = true := beq_iff_eq.mpr hx
        simp [List.find?, hb, hx]
      · have hb : (x.key == k) = false := beq_eq_false_iff_ne.mpr hx
        simp [List.find?, hb, hx]
  have h1 : ∀ (issues : List JiraBaseIssue) (k : String),
      issue_map issues k = issues.reverse.find? (fun i => i.key == k) := by
    intro issues k
    rw [issue_map, hfold k issues Option.none, Option.or_none]
  refine ⟨h1, ?_⟩
  intro issues k i hm
  rw [h1] at hm
  have := List.find?_some hm
  exact eq_of_beq this

/-- C2 (witness for the amended theorem): on a singleton batch the lookup
returns that issue and its key matches. -/
theorem issue_map_last_write_wins_witness :
    issue_map [dupFirst] "DUP-1" = some dupFirst ∧ dupFirst.key = "DUP-1" :=
  ⟨by decide, issue_map_last_write_wins.2 [dupFirst] "DUP-1" dupFirst (by decide)⟩

/-- C6 (counterexample): when the keyword-extraction collaborator fails, the
source wraps nothing in a try/except, so `keyword_search` surfaces the
exception instead of returning an empty result set — the soft-failure claim
is false. -/
theorem keyword_search_raises_on_extraction_failure :
    keyword_search (Except.error "boom") (Except.ok [alphaBetaIssue])
        ["summary", "description"] "contains" (fun _ _ => false) =
      Except.error "boom" ∧
    ¬ (keyword_search (Except.error "boom") (Except.ok [alphaBetaIssue])
        ["summary", "description"] "contains" (fun _ _ => false) =
      Except.ok []) := by
  constructor
  · rfl
  · intro h
    exact Except.noConfusion h

/-- C6 (amended): a failure of the keyword-extraction call or of the upstream
issue fetch propagates out of `keyword_search` unchanged — there is no
soft-fail handler. -/
theorem keyword_search_propagates_collaborator_failures :
    (∀ (e : String) (fetched : Except String (List JiraBaseIssue))
        (category : List String) (match_mode : String) (r : String → String → Bool),
      keyword_search (Except.error e) fetched category match_mode r = Except.error e) ∧
    (∀ (kws : List String) (e : String)
        (category : List String) (match_mode : String) (r : String → String → Bool),
      keyword_search (Except.ok kws) (Except.error e) category match_mode r = Except.error e) :=
  ⟨fun _ _ _ _ _ => rfl, fun _ _ _ _ _ => rfl⟩

/-- C5: `get_connected_issues` raises (the `IssueNotFoundException` of
`get_issue_by_key`) exactly when the starting key misses the repository; a
dangling reference met during traversal (issue "A" listing subtask "GHOST"
absent from the repository) is skipped and the present issues are returned. -/
theorem get_connected_issues_error_iff_start_missing :
    (∀ (issues : List JiraBaseIssue) (k : String),
      (∃ e, get_connected_issues issues k = Except.error e) ↔
        issue_map issues k = Option.none) ∧
    get_connected_issues [ghostIssue] "A" = Except.ok [ghostIssue] := by
  constructor
  · intro issues k
    constructor
    · rintro ⟨e, he⟩
      cases h : issue_map issues k with
      | none => rfl
      | some i =>
        rw [get_connected_issues, get_issue_by_key, h] at he
        exact Except.noConfusion he
    · intro h
      refine ⟨"IssueNotFoundException: Issue with key " ++ k ++ " not found.", ?_⟩
      rw [get_connected_issues, get_issue_by_key, h]
      rfl
  · simp only [get_connected_issues, get_issue_by_key, issue_map, ghostIssue, mkIssue,
      List.foldl, Bind.bind, Except.bind]
    norm_num
    simp [bfsLoop, enqueueLinks, linkKeys, issue_map, List.insertionSort, List.orderedInsert]

/-- C5 (witness): on the empty repository the starting key "Z" misses and
the traversal raises. -/
theorem get_connected_issues_error_iff_start_missing_witness :
    issue_map ([] : List JiraBaseIssue) "Z" = Option.none ∧
    (∃ e, get_connected_issues ([] : List JiraBaseIssue) "Z" = Except.error e) :=
  ⟨rfl, (get_connected_issues_error_iff_start_missing.1 [] "Z").mpr rfl⟩

/-- C10: for a supplied scalar (non-list, non-None) parameter value,
`_resolve_value` is total and resolves with lookup-table-first precedence:
a value that is a key of the parameter's table resolves to the table entry;
otherwise a value naming another supplied parameter resolves to that
parameter's value; otherwise the value passes through verbatim (integers
always pass through). -/
theorem resolve_value_scalar_passthrough :
    (∀ tables params key sv tv, paramsGet params key = some (PValue.s sv) →
      tableGet (lookupTable tables key) sv = some tv →
      resolve_value tables params key = Except.ok (PValue.s tv)) ∧
    (∀ tables params key sv pv, paramsGet params key = some (PValue.s sv) →
      tableGet (lookupTable tables key) sv = Option.none →
      paramsGet params sv = some pv →
      resolve_value tables params key = Except.ok pv) ∧
    (∀ tables params key sv, paramsGet params key = some (PValue.s sv) →
      tableGet (lookupTable tables key) sv = Option.none →
      paramsGet params sv = Option.none →
      resolve_value tables params key = Except.ok (PValue.s sv)) ∧
    (∀ tables params key n, paramsGet params key = some (PValue.intVal n) →
      resolve_value tables params key = Except.ok (PValue.intVal n)) := by
  refine ⟨?_, ?_, ?_, ?_⟩
  · intro tables params key sv tv h1 h2
    simp [resolve_value, h1, h2]
  · intro tables params key sv pv h1 h2 h3
    simp [resolve_value, h1, h2, h3]
  · intro tables params key sv h1 h2 h3
    simp [resolve_value, h1, h2, h3]
  · intro tables params key n h1
    simp [resolve_value, h1]

/-- C10 (witness): with a table entry present the table wins; the integer
value 4 passes through. -/
theorem resolve_value_scalar_passthrough_witness :
    paramsGet [("goal", PValue.s "code")] "goal" = some (PValue.s "code") ∧
    tableGet (lookupTable [("GOAL", [("code", "robust code")])] "goal") "code" =
      some "robust code" ∧
    resolve_value [("GOAL", [("code", "robust code")])] [("goal", PValue.s "code")] "goal" =
      Except.ok (PValue.s "robust code") ∧
    resolve_value [] [("min_keywords", PValue.intVal 4)] "min_keywords" =
      Except.ok (PValue.intVal 4) :=
  ⟨by decide, by decide,
    resolve_value_scalar_passthrough.1 _ _ "goal" "code" "robust code" (by decide) (by decide),
    resolve_value_scalar_passthrough.2.2.2 [] [("min_keywords", PValue.intVal 4)]
      "min_keywords" 4 (by decide)⟩

/-- C8: list-valued parameter resolution — when every item resolves, the
resolved items are joined into Oxford-style prose (one item as-is, two joined
with "and", three joined with commas and a trailing "and"); an item that
resolves against neither the lookup table nor the parameter set makes
resolution fail with the unresolvable-list-item `ValueError`. -/
theorem resolve_value_list_prose :
    (∀ tables params key items rs,
      paramsGet params key = some (PValue.listVal items) →
      resolveItems (lookupTable tables key) params key items = Except.ok rs →
      resolve_value tables params key = Except.ok (PValue.s (joinProse rs))) ∧
    (∀ a : String, joinProse [a] = a) ∧
    (∀ a b : String, joinProse [a, b] = a ++ " and " ++ b) ∧
    (∀ a b c : String, joinProse [a, b, c] = a ++ ", " ++ b ++ ", and " ++ c) ∧
    (∀ tables params key items item,
      paramsGet params key = some (PValue.listVal items) →
      item ∈ items →
      tableGet (lookupTable tables key) item = Option.none →
      paramsGet params item = Option.none →
      ∃ m, resolve_value tables params key = Except.error (PromptError.valueError m)) := by
  refine ⟨?_, ?_, ?_, ?_, ?_⟩
  · intro tables params key items rs h1 h2
    simp [resolve_value, h1, h2, Except.map]
  · intro a; rfl
  · intro a b; rfl
  · intro a b c
    simp [joinProse, String.intercalate, String.intercalate.go, List.getLast!,
      List.getLast?, String.append_assoc]
  · intro tables params key items item h1 hmem h3 h4
    have herr : ∀ its : List String, item ∈ its →
        ∃ m, resolveItems (lookupTable tables key) params key its =
          Except.error (PromptError.valueError m) := by
      intro its
      induction its with
      | nil => intro hm; cases hm
      | cons x xs ih =>
        intro hm
        cases hx1 : tableGet (lookupTable tables key) x with
        | some v =>
          have hxs : item ∈ xs := by
            rcases List.mem_cons.mp hm with rfl | h
            · rw [h3] at hx1; cases hx1
            · exact h
          obtain ⟨m, hme⟩ := ih hxs
          exact ⟨m, by simp [resolveItems, hx1, hme, Except.map]⟩
        | none =>
          cases hx2 : paramsGet params x with
          | some pv =>
            have hxs : item ∈ xs := by
              rcases List.mem_cons.mp hm with rfl | h
              · rw [h4] at hx2; cases hx2
              · exact h
            obtain ⟨m, hme⟩ := ih hxs
            exact ⟨m, by simp [resolveItems, hx1, hx2, hme, Except.map]⟩
          | none =>
            exact ⟨"Value " ++ x ++ " in list for " ++ key ++ " not found",
              by simp [resolveItems, hx1, hx2]⟩
    obtain ⟨m, hme⟩ := herr items hmem
    exact ⟨m, by simp [resolve_value, h1, hme, Except.map]⟩

/-- C8 (witness): a three-item goal list over a concrete table joins to
"A, B, and C", and the symbolic join shapes instantiate. -/
theorem resolve_value_list_prose_witness :
    paramsGet [("goal", PValue.listVal ["a", "b", "c"])] "goal" =
      some (PValue.listVal ["a", "b", "c"]) ∧
    resolveItems (lookupTable [("GOAL", [("a", "A"), ("b", "B"), ("c", "C")])] "goal")
        [("goal", PValue.listVal ["a", "b", "c"])] "goal" ["a", "b", "c"] =
      Except.ok ["A", "B", "C"] ∧
    resolve_value [("GOAL", [("a", "A"), ("b", "B"), ("c", "C")])]
        [("goal", PValue.listVal ["a", "b", "c"])] "goal" =
      Except.ok (PValue.s (joinProse ["A", "B", "C"])) ∧
    joinProse ["A", "B", "C"] = "A, B, and C" :=
  ⟨by decide, by decide,
    resolve_value_list_prose.1 _ _ "goal" ["a", "b", "c"] ["A", "B", "C"]
      (by decide) (by decide),
    resolve_value_list_prose.2.2.2.1 "A" "B" "C"⟩

/-- C3 (counterexample): an object-shaped payload whose identity key is
present but whose `status` field is absent makes `create_issue` fail —
`parse_fields` reads the status back with no default and dereferences
`.name` on the `None` — contradicting the claim that only an unresolvable
`key` can make it fail. -/
theorem create_issue_fails_on_absent_status :
    create_issue false rawNoStatus =
      Except.error "AttributeError: NoneType has no attribute name (status)" ∧
    ¬ ∃ r, create_issue false rawNoStatus = Except.ok r := by
  constructor
  · rfl
  · rintro ⟨r, hr⟩
    rw [show create_issue false rawNoStatus =
      Except.error "AttributeError: NoneType has no attribute name (status)" from rfl] at hr
    exact Except.noConfusion hr

/-- C3 (amended): for object-shaped payloads, `create_issue` fails not only
on an unresolvable key — an absent `status`, `project` or `issuetype` also
makes it fail (attribute access on the `None` default); the degradation to
defaults holds for the remaining optional fields: absent `description`
becomes "No description", absent `timespent` becomes 0, absent
worklog/attachment containers become `[]`, and absent assignee/reporter
become `None`. -/
theorem create_issue_failure_and_default_policy :
    (∀ (raw : RawIssue) (k : String), raw.key = some k →
      raw.fields.status = Option.none →
      ∃ e, create_issue false raw = Except.error e) ∧
    (∀ (raw : RawIssue) (k : String) (st : RawStatus), raw.key = some k →
      raw.fields.status = some st → raw.fields.project = Option.none →
      ∃ e, create_issue false raw = Except.error e) ∧
    (∀ (raw : RawIssue) (k : String) (st : RawStatus) (pr : RawNamed), raw.key = some k →
      raw.fields.status = some st → raw.fields.project = some pr →
      raw.fields.issuetype = Option.none →
      ∃ e, create_issue false raw = Except.error e) ∧
    (∀ (k s : String) (st : RawStatus) (pr : RawNamed) (it : RawIssueType) (cr up u : String),
      s ≠ "" → cr ≠ "" → up ≠ "" → it.subtask = false → it.name ≠ "Bug" →
      ∃ r w, create_issue false (rawDefaults k s st pr it cr up u) = Except.ok (r, w) ∧
        r.base.description = "No description" ∧
        r.base.timeSpentSeconds = 0 ∧
        r.base.worklogs = [] ∧
        r.base.attachments = [] ∧
        r.base.assignee = Option.none ∧
        r.base.reporter = Option.none) := by
  refine ⟨?_, ?_, ?_, ?_⟩
  · intro raw k h1 h2
    refine ⟨"AttributeError: NoneType has no attribute name (status)", ?_⟩
    simp [create_issue, parse_fields, h1, h2, get_field_obj, Bind.bind, Except.bind]
  · intro raw k st h1 h2 h3
    refine ⟨"AttributeError: NoneType has no attribute name (project)", ?_⟩
    simp [create_issue, parse_fields, h1, h2, h3, get_field_obj, Bind.bind, Except.bind]
  · intro raw k st pr h1 h2 h3 h4
    refine ⟨"AttributeError: NoneType has no attribute name (issuetype)", ?_⟩
    simp [create_issue, parse_fields, h1, h2, h3, h4, get_field_obj, Bind.bind, Except.bind]
  · intro k s st pr it cr up u hs hcr hup hsub hbug
    have hpf : parse_fields (rawDefaults k s st pr it cr up u) = Except.ok
        { key := k, summary := some s, description := "No description",
          status := st.name, statusCategory := st.statusCategory.name,
          project := pr.name, issue_type := it.name,
          assignee := Option.none, reporter := Option.none,
          created := some cr, updated := some up,
          timeSpentSeconds := 0, url := u, worklogs := [], attachments := [] } := by
      simp [parse_fields, rawDefaults, get_field_str, get_field_obj, parse_user,
        parse_worklogs, parse_attachments, hs, hcr, hup, Bind.bind, Except.bind]
    have hmk : mkBaseIssue
        { key := k, summary := some s, description := "No description",
          status := st.name, statusCategory := st.statusCategory.name,
          project := pr.name, issue_type := it.name,
          assignee := Option.none, reporter := Option.none,
          created := some cr, updated := some up,
          timeSpentSeconds := 0, url := u, worklogs := [], attachments := [] } =
        Except.ok (defaultsBase k s st pr it cr up u) := rfl
    have hiss : (rawDefaults k s st pr it cr up u).fields.issuetype = some it := rfl
    by_cases hE : it.name = "Epic"
    · refine ⟨ParsedIssue.epicIssue (defaultsBase k s st pr it cr up u), [], ?_,
        rfl, rfl, rfl, rfl, rfl, rfl⟩
      rw [hE] at hmk
      simp [create_issue, hiss, hpf, hsub, hE, hmk, Bind.bind, Except.bind]
    · by_cases hS : it.name = "Story" ∨ it.name = "Innovation"
      · rcases hS with hS2 | hS2
        · refine ⟨ParsedIssue.storyIssue (defaultsBase k s st pr it cr up u), [], ?_,
            rfl, rfl, rfl, rfl, rfl, rfl⟩
          rw [hS2] at hmk
          simp [create_issue, hiss, hpf, hsub, hS2, hmk, Bind.bind, Except.bind]
        · refine ⟨ParsedIssue.storyIssue (defaultsBase k s st pr it cr up u), [], ?_,
            rfl, rfl, rfl, rfl, rfl, rfl⟩
          rw [hS2] at hmk
          simp [create_issue, hiss, hpf, hsub, hS2, hmk, Bind.bind, Except.bind]
      · by_cases hT : it.name = "Task"
        · refine ⟨ParsedIssue.taskIssue (defaultsBase k s st pr it cr up u)
            Option.none Option.none, [], ?_, rfl, rfl, rfl, rfl, rfl, rfl⟩
          rw [hT] at hmk
          have hpar : (rawDefaults k s st pr it cr up u).fields.parent = Option.none := rfl
          simp [create_issue, hiss, hpf, hsub, hT, hpar, hmk, Bind.bind, Except.bind]
        · refine ⟨ParsedIssue.baseIssue (defaultsBase k s st pr it cr up u),
            [{ unrecognizedType := it.name, offendingKey := k }], ?_,
            rfl, rfl, rfl, rfl, rfl, rfl⟩
          simp [create_issue, hiss, hpf, hsub, hE, hS, hT, hbug, hmk, Bind.bind, Except.bind]

/-- C3 (witness for the amended theorem): a concrete Story payload with all
optional containers absent parses with the stated defaults, and the same
payload with `status` removed fails. -/
theorem create_issue_failure_and_default_policy_witness :
    (rawNoStatus.key = some "K-1" ∧ rawNoStatus.fields.status = Option.none ∧
      (∃ e, create_issue false rawNoStatus = Except.error e)) ∧
    ((("Hello" : String) ≠ "") ∧
      (∃ r w, create_issue false
          (rawDefaults "K-1" "Hello" { name := "Open", statusCategory := { name := "To Do" } }
            { name := "Proj" } { name := "Story", subtask := false }
            "2024-01-01" "2024-01-02" "https://jira/K-1") = Except.ok (r, w) ∧
        r.base.description = "No description" ∧
        r.base.timeSpentSeconds = 0 ∧
        r.base.worklogs = [] ∧
        r.base.attachments = [] ∧
        r.base.assignee = Option.none ∧
        r.base.reporter = Option.none)) :=
  ⟨⟨rfl, rfl,
      create_issue_failure_and_default_policy.1 rawNoStatus "K-1" rfl rfl⟩,
    ⟨by decide,
      create_issue_failure_and_default_policy.2.2.2 "K-1" "Hello"
        { name := "Open", statusCategory := { name := "To Do" } } { name := "Proj" }
        { name := "Story", subtask := false } "2024-01-01" "2024-01-02" "https://jira/K-1"
        (by decide) (by decide) (by decide) rfl (by decide)⟩⟩

/-- C7 (counterexample): a mapping-shaped Story payload never reaches the
dispatch — the leftover debug line `if '981' in issue.key:` evaluates
`issue.key` as an attribute access and raises `AttributeError` on a `dict` —
so a mapping-shaped payload is not resolved to its Story variant (nor to the
warned fallback) as the claim requires. -/
theorem create_issue_dict_payload_crashes :
    create_issue true rawStory =
      Except.error "AttributeError: dict object has no attribute key" ∧
    ¬ ∃ r, create_issue true rawStory = Except.ok r := by
  constructor
  · rfl
  · rintro ⟨r, hr⟩
    rw [show create_issue true rawStory =
      Except.error "AttributeError: dict object has no attribute key" from rfl] at hr
    exact Except.noConfusion hr

/-- C7 (amended): for object-shaped payloads the variant dispatch evaluates
its predicates in source order with first match winning — subtask flag (any
type name), then "Epic", then "Story"/"Innovation", then "Task" with the
parent key included iff a parent reference exists, then "Bug" capturing the
`fixVersions` value — and a payload matching no predicate resolves to the
generic base issue together with a warning naming the unrecognized type and
the offending key.  Mapping-shaped payloads crash before the dispatch. -/
theorem create_issue_dispatch_order :
    (∀ (raw : RawIssue) (it : RawIssueType), raw.fields.issuetype = some it →
      it.subtask = true →
      ∀ r w, create_issue false raw = Except.ok (r, w) →
        (∃ b pk ps, r = ParsedIssue.subtaskIssue b pk ps) ∧ w = []) ∧
    (∀ (raw : RawIssue) (it : RawIssueType), raw.fields.issuetype = some it →
      it.subtask = false → it.name = "Epic" →
      ∀ r w, create_issue false raw = Except.ok (r, w) →
        (∃ b, r = ParsedIssue.epicIssue b) ∧ w = []) ∧
    (∀ (raw : RawIssue) (it : RawIssueType), raw.fields.issuetype = some it →
      it.subtask = false → (it.name = "Story" ∨ it.name = "Innovation") →
      ∀ r w, create_issue false raw = Except.ok (r, w) →
        (∃ b, r = ParsedIssue.storyIssue b) ∧ w = []) ∧
    (∀ (raw : RawIssue) (it : RawIssueType), raw.fields.issuetype = some it →
      it.subtask = false → it.name = "Task" →
      ∀ r w, create_issue false raw = Except.ok (r, w) →
        (∃ b, r = ParsedIssue.taskIssue b (raw.fields.parent.map RawParent.key)
          Option.none) ∧ w = []) ∧
    (∀ (raw : RawIssue) (it : RawIssueType), raw.fields.issuetype = some it →
      it.subtask = false → it.name = "Bug" →
      ∀ r w, create_issue false raw = Except.ok (r, w) →
        (∃ b fv, raw.fields.fixVersions = some fv ∧ r = ParsedIssue.bugIssue b fv) ∧
          w = []) ∧
    (∀ (raw : RawIssue) (it : RawIssueType), raw.fields.issuetype = some it →
      it.subtask = false → it.name ≠ "Epic" → it.name ≠ "Story" →
      it.name ≠ "Innovation" → it.name ≠ "Task" → it.name ≠ "Bug" →
      ∀ r w, create_issue false raw = Except.ok (r, w) →
        (∃ b, r = ParsedIssue.baseIssue b) ∧
          w = [{ unrecognizedType := it.name, offendingKey := r.base.key }]) := by
  refine ⟨?_, ?_, ?_, ?_, ?_, ?_⟩
  · intro raw it hit hsub r w h
    simp only [create_issue, Bind.bind, Except.bind] at h
    cases hpf : parse_fields raw with
    | error e => rw [hpf] at h; exact Except.noConfusion h
    | ok kw =>
      rw [hpf, hit] at h
      simp only [hsub, Bool.false_eq_true, reduceIte, if_true, ite_true] at h
      cases hp : raw.fields.parent with
      | none => rw [hp] at h; exact Except.noConfusion h
      | some parent =>
        rw [hp] at h
        cases hmb : mkBaseIssue kw with
        | error e => rw [hmb] at h; exact Except.noConfusion h
        | ok b =>
          rw [hmb] at h
          simp only [Except.ok.injEq, Prod.mk.injEq] at h
          exact ⟨⟨b, parent.key, parent.parent_fields_summary, h.1.symm⟩, h.2.symm⟩
  · intro raw it hit hsub hname r w h
    simp only [create_issue, Bind.bind, Except.bind] at h
    cases hpf : parse_fields raw with
    | error e => rw [hpf] at h; exact Except.noConfusion h
    | ok kw =>
      rw [hpf, hit] at h
      simp only [hsub, hname, Bool.false_eq_true, reduceIte, if_true, ite_true] at h
      cases hmb : mkBaseIssue kw with
      | error e => rw [hmb] at h; exact Except.noConfusion h
      | ok b =>
        rw [hmb] at h
        simp only [Except.ok.injEq, Prod.mk.injEq] at h
        exact ⟨⟨b, h.1.symm⟩, h.2.symm⟩
  · intro raw it hit hsub hname r w h
    simp only [create_issue, Bind.bind, Except.bind] at h
    cases hpf : parse_fields raw with
    | error e => rw [hpf] at h; exact Except.noConfusion h
    | ok kw =>
      rw [hpf, hit] at h
      simp only [hsub, Bool.false_eq_true, reduceIte, if_true, ite_true] at h
      rw [if_neg (show ¬ it.name = "Epic" from by
        rcases hname with h2 | h2 <;> rw [h2] <;> decide)] at h
      rw [if_pos hname] at h
      cases hmb : mkBaseIssue kw with
      | error e => rw [hmb] at h; exact Except.noConfusion h
      | ok b =>
        rw [hmb] at h
        simp only [Except.ok.injEq, Prod.mk.injEq] at h
        exact ⟨⟨b, h.1.symm⟩, h.2.symm⟩
  · intro raw it hit hsub hname r w h
    simp only [create_issue, Bind.bind, Except.bind] at h
    cases hpf : parse_fields raw with
    | error e => rw [hpf] at h; exact Except.noConfusion h
    | ok kw =>
      rw [hpf, hit] at h
      simp only [hsub, Bool.false_eq_true, reduceIte, if_true, ite_true] at h
      rw [if_neg (show ¬ it.name = "Epic" from by rw [hname]; decide)] at h
      rw [if_neg (show ¬ (it.name = "Story" ∨ it.name = "Innovation") from by
        rw [hname]; decide)] at h
      rw [if_pos hname] at h
      cases hp : raw.fields.parent with
      | none =>
        rw [hp] at h
        cases hmb : mkBaseIssue kw with
        | error e => rw [hmb] at h; exact Except.noConfusion h
        | ok b =>
          rw [hmb] at h
          simp only [Except.ok.injEq, Prod.mk.injEq] at h
          exact ⟨⟨b, h.1.symm⟩, h.2.symm⟩
      | some parent =>
        rw [hp] at h
        cases hmb : mkBaseIssue kw with
        | error e => rw [hmb] at h; exact Except.noConfusion h
        | ok b =>
          rw [hmb] at h
          simp only [Except.ok.injEq, Prod.mk.injEq] at h
          exact ⟨⟨b, h.1.symm⟩, h.2.symm⟩
  · intro raw it hit hsub hname r w h
    simp only [create_issue, Bind.bind, Except.bind] at h
    cases hpf : parse_fields raw with
    | error e => rw [hpf] at h; exact Except.noConfusion h
    | ok kw =>
      rw [hpf, hit] at h
      simp only [hsub, Bool.false_eq_true, reduceIte, if_true, ite_true] at h
      rw [if_neg (show ¬ it.name = "Epic" from by rw [hname]; decide)] at h
      rw [if_neg (show ¬ (it.name = "Story" ∨ it.name = "Innovation") from by
        rw [hname]; decide)] at h
      rw [if_neg (show ¬ it.name = "Task" from by rw [hname]; decide)] at h
      rw [if_pos hname] at h
      cases hfv : raw.fields.fixVersions with
      | none => rw [hfv] at h; exact Except.noConfusion h
      | some fv =>
        rw [hfv] at h
        cases hmb : mkBaseIssue kw with
        | error e => rw [hmb] at h; exact Except.noConfusion h
        | ok b =>
          rw [hmb] at h
          simp only [Except.ok.injEq, Prod.mk.injEq] at h
          exact ⟨⟨b, fv, rfl, h.1.symm⟩, h.2.symm⟩
  · intro raw it hit hsub hE hS hI hT hB r w h
    simp only [create_issue, Bind.bind, Except.bind] at h
    cases hpf : parse_fields raw with
    | error e => rw [hpf] at h; exact Except.noConfusion h
    | ok kw =>
      rw [hpf, hit] at h
      simp only [hsub, Bool.false_eq_true, reduceIte, if_true, ite_true] at h
      rw [if_neg hE] at h
      rw [if_neg (show ¬ (it.name = "Story" ∨ it.name = "Innovation") from by
        simp [hS, hI])] at h
      rw [if_neg hT, if_neg hB] at h
      cases hmb : mkBaseIssue kw with
      | error e => rw [hmb] at h; exact Except.noConfusion h
      | ok b =>
        rw [hmb] at h
        simp only [Except.ok.injEq, Prod.mk.injEq] at h
        refine ⟨⟨b, h.1.symm⟩, ?_⟩
        rw [← h.2, ← h.1]
        have hbk : b.key = kw.key := by
          cases hsummary : kw.summary with
          | none => rw [mkBaseIssue, hsummary] at hmb; exact Except.noConfusion hmb
          | some s =>
            cases hcreated : kw.created with
            | none =>
              rw [mkBaseIssue, hsummary, hcreated] at hmb
              exact Except.noConfusion hmb
            | some c =>
              cases hupdated : kw.updated with
              | none =>
                rw [mkBaseIssue, hsummary, hcreated, hupdated] at hmb
                exact Except.noConfusion hmb
              | some u2 =>
                rw [mkBaseIssue, hsummary, hcreated, hupdated] at hmb
                cases hmb
                rfl
        simp [ParsedIssue.base, hbk]

/-- C7 (witness for the amended theorem): the unrecognized type "Wish" on an
object-shaped payload falls back to the generic base issue with the warning
naming "Wish" and the key "K-1". -/
theorem create_issue_dispatch_order_witness :
    rawWeird.fields.issuetype = some { name := "Wish", subtask := false } ∧
    ((∃ b, ParsedIssue.baseIssue weirdBase = ParsedIssue.baseIssue b) ∧
      [({ unrecognizedType := "Wish", offendingKey := "K-1" } : UnhandledTypeWarning)] =
        [{ unrecognizedType := ({ name := "Wish", subtask := false } : RawIssueType).name,
           offendingKey := (ParsedIssue.baseIssue weirdBase).base.key }]) :=
  ⟨rfl, create_issue_dispatch_order.2.2.2.2.2 rawWeird { name := "Wish", subtask := false }
    rfl rfl (by decide) (by decide) (by decide) (by decide) (by decide)
    (ParsedIssue.baseIssue weirdBase)
    [{ unrecognizedType := "Wish", offendingKey := "K-1" }] (by decide)⟩

/-- Helper: rebuilding a string from its character data is the identity. -/
theorem string_mk_data (s : String) : String.mk s.data = s := rfl

/-- Helper: `String.mk` turns list append into string append. -/
theorem string_mk_append (l1 l2 : List Char) :
    String.mk (l1 ++ l2) = String.mk l1 ++ String.mk l2 := rfl

/-- Helper: unpacking `braceFreeB`. -/
theorem braceFree_spec {s : String} (h : braceFreeB s = true) :
    ∀ c ∈ s.data, ¬ c = '\x7b' ∧ ¬ c = '\x7d' := by
  intro c hc
  have h2 := List.all_eq_true.mp h c hc
  simp only [Bool.and_eq_true, Bool.not_eq_true', decide_eq_false_iff_not] at h2
  exact h2

/-- Helper: a brace-free string is never the `{key}`-wrapped form. -/
theorem braceFree_ne_wrapped {k : String} (y : String) (hk : braceFreeB k = true) :
    ¬ ("\x7b" ++ y ++ "\x7d" = k) := by
  intro h
  have hmem : '\x7b' ∈ k.data := by
    rw [← h]
    simp [String.data_append]
  exact (braceFree_spec hk _ hmem).1 rfl

/-- Helper: a brace-free string contains no `{`. -/
theorem braceFree_not_contains {s : String} (h : braceFreeB s = true) :
    s.data.contains '\x7b' = false := by
  cases hc : s.data.contains '\x7b' with
  | false => rfl
  | true =>
    have hmem : '\x7b' ∈ s.data := List.mem_of_elem_eq_true hc
    exact absurd rfl (braceFree_spec h _ hmem).1

/-- Helper: the `{key}` wrapping always contains a `{`. -/
theorem wrapped_contains (y : String) :
    ("\x7b" ++ y ++ "\x7d").data.contains '\x7b' = true := by
  simp [String.data_append]

/-- Helper: `takeWhile`/`dropWhile` split at the first failing element. -/
theorem takeWhile_dropWhile_append (p : Char → Bool) (l : List Char) (b : Char)
    (r : List Char) (hl : ∀ c ∈ l, p c = true) (hb : p b = false) :
    (l ++ b :: r).takeWhile p = l ∧ (l ++ b :: r).dropWhile p = b :: r := by
  induction l with
  | nil => simp [List.takeWhile_cons, List.dropWhile_cons, hb]
  | cons x xs ih =>
    have hx := hl x (List.mem_cons_self _ _)
    obtain ⟨h1, h2⟩ := ih (fun c hc => hl c (List.mem_cons_of_mem _ hc))
    simp [List.takeWhile_cons, List.dropWhile_cons, hx, h1, h2]

/-- Helper: a plain character parses as one literal segment. -/
theorem parseFmt_lit_cons (c : Char) (rest : List Char)
    (h1 : ¬ c = '\x7b') (h2 : ¬ c = '\x7d') :
    parseFmt (c :: rest) = FmtSeg.lit c :: parseFmt rest := by
  rw [parseFmt.eq_def]
  simp only [if_neg h1, if_neg h2]

/-- Helper: brace-free characters parse as literal segments. -/
theorem parseFmt_lit_append (l rest : List Char)
    (hl : ∀ c ∈ l, ¬ c = '\x7b' ∧ ¬ c = '\x7d') :
    parseFmt (l ++ rest) = l.map FmtSeg.lit ++ parseFmt rest := by
  induction l with
  | nil => simp
  | cons x xs ih =>
    obtain ⟨hx1, hx2⟩ := hl x (List.mem_cons_self _ _)
    rw [List.cons_append, parseFmt_lit_cons x _ hx1 hx2,
      ih (fun c hc => hl c (List.mem_cons_of_mem _ hc))]
    simp

/-- Helper: `{name}` parses as one replacement field when the name is
non-empty and brace-free. -/
theorem parseFmt_field_cons (s : String) (rest : List Char)
    (hs : braceFreeB s = true) (hne : s ≠ "") :
    parseFmt ('\x7b' :: (s.data ++ '\x7d' :: rest)) =
      FmtSeg.field s :: parseFmt rest := by
  obtain ⟨c0, cs, hdata⟩ : ∃ c0 cs, s.data = c0 :: cs := by
    cases s with
    | mk d =>
      cases d with
      | nil => exact absurd rfl hne
      | cons a l => exact ⟨a, l, rfl⟩
  have hc0 : ¬ c0 = '\x7b' := by
    have := braceFree_spec hs c0 (by rw [hdata]; exact List.mem_cons_self _ _)
    exact this.1
  have htw := takeWhile_dropWhile_append (fun d => !(d = '\x7d')) s.data '\x7d' rest
    (fun c hc => by
      have := braceFree_spec hs c hc
      simp [this.2])
    (by simp)
  rw [parseFmt.eq_def]
  simp only [hdata, List.cons_append, ite_true, if_true]
  rw [if_neg (by simp [hc0] : ¬ ((c0 :: (cs ++ '\x7d' :: rest)).head? = some '\x7b'))]
  rw [← List.cons_append, ← hdata]
  rw [htw.1, htw.2]
  simp [string_mk_data]

/-- Helper: the character data of the `{x}` template. -/
theorem wrapped_data (x : String) :
    ("\x7b" ++ x ++ "\x7d").data = '\x7b' :: (x.data ++ '\x7d' :: []) := by
  simp [String.data_append]

/-- Helper: a lone `{x}` placeholder extracts to the singleton set `[x]`. -/
theorem extract_single (x : String) (hx : braceFreeB x = true) (hne : x ≠ "") :
    extract_placeholders ("\x7b" ++ x ++ "\x7d") = [x] := by
  rw [extract_placeholders, wrapped_data, parseFmt_field_cons x [] hx hne]
  rw [parseFmt.eq_def]
  simp [hne]

/-- Helper: the character data of the `{a} {b}` template. -/
theorem pair_data (a b : String) :
    ("\x7b" ++ a ++ "\x7d \x7b" ++ b ++ "\x7d").data =
      '\x7b' :: (a.data ++ '\x7d' :: (' ' :: '\x7b' :: (b.data ++ '\x7d' :: []))) := by
  simp [String.data_append]

/-- Helper: the `{a} {b}` template extracts to `[a, b]`. -/
theorem extract_pair (a b : String) (ha : braceFreeB a = true)
    (hb : braceFreeB b = true) (hnea : a ≠ "") (hneb : b ≠ "") (hab : a ≠ b) :
    extract_placeholders ("\x7b" ++ a ++ "\x7d \x7b" ++ b ++ "\x7d") = [a, b] := by
  rw [extract_placeholders, pair_data]
  rw [show ('\x7b' :: (a.data ++ '\x7d' :: (' ' :: '\x7b' :: (b.data ++ '\x7d' :: [])))) =
    ('\x7b' :: (a.data ++ '\x7d' :: (' ' :: '\x7b' :: (b.data ++ '\x7d' :: []))))
    from rfl]
  rw [parseFmt_field_cons a (' ' :: '\x7b' :: (b.data ++ '\x7d' :: [])) ha hnea]
  rw [parseFmt_lit_cons ' ' _ (by decide) (by decide)]
  rw [parseFmt_field_cons b [] hb hneb]
  rw [parseFmt.eq_def]
  simp [hnea, hneb, List.dedup_cons_of_not_mem, hab]

/-- Helper: substituting the lone placeholder of `{x}`. -/
theorem formatMap_single (x : String) (hx : braceFreeB x = true) (hne : x ≠ "")
    (v : PValue) :
    formatMap ("\x7b" ++ x ++ "\x7d") [(x, v)] = pvalueStr v := by
  rw [formatMap, wrapped_data, parseFmt_field_cons x [] hx hne]
  rw [parseFmt.eq_def]
  simp [string_mk_data]

/-- Helper: substituting the two placeholders of `{a} {b}`. -/
theorem formatMap_pair (a b : String) (ha : braceFreeB a = true)
    (hb : braceFreeB b = true) (hnea : a ≠ "") (hneb : b ≠ "") (hab : a ≠ b)
    (va vb : PValue) :
    formatMap ("\x7b" ++ a ++ "\x7d \x7b" ++ b ++ "\x7d") [(a, va), (b, vb)] =
      pvalueStr va ++ " " ++ pvalueStr vb := by
  rw [formatMap, pair_data]
  rw [parseFmt_field_cons a (' ' :: '\x7b' :: (b.data ++ '\x7d' :: [])) ha hnea]
  rw [parseFmt_lit_cons ' ' _ (by decide) (by decide)]
  rw [parseFmt_field_cons b [] hb hneb]
  rw [parseFmt.eq_def]
  have hba : (a == b) = false := beq_eq_false_iff_ne.mpr hab
  simp only [List.flatMap_cons, List.flatMap_nil, List.find?_cons, beq_self_eq_true,
    List.append_nil, hba]
  show String.mk ((pvalueStr va).data ++ ([' '] ++ (pvalueStr vb).data)) =
    pvalueStr va ++ " " ++ pvalueStr vb
  rw [string_mk_append, string_mk_append, string_mk_data, string_mk_data,
    ← String.append_assoc]

/-- Helper: parameter lookup walks past a non-matching binding. -/
theorem paramsGet_cons_ne (k : String) (v : PValue) (rest : List (String × PValue))
    (q : String) (h : ¬ k = q) :
    paramsGet ((k, v) :: rest) q = paramsGet rest q := by
  simp [paramsGet, List.find?_cons, beq_eq_false_iff_ne.mpr h]

/-- Helper: parameter lookup hits a matching binding. -/
theorem paramsGet_cons_self (k : String) (v : PValue) (rest : List (String × PValue)) :
    paramsGet ((k, v) :: rest) k = some v := by
  simp [paramsGet, List.find?_cons]

/-- Helper: with empty lookup tables, a string value naming no parameter
passes through `_resolve_value` verbatim. -/
theorem resolve_value_verbatim (params : List (String × PValue)) (key sv : String)
    (hp : paramsGet params key = some (PValue.s sv))
    (hm : paramsGet params sv = Option.none) :
    resolve_value [] params key = Except.ok (PValue.s sv) := by
  simp [resolve_value, hp, hm, lookupTable, tableGet]

/-- C4: path-scoped template cycle detection.  A prompt in which parameter
`x` expands to the placeholder of `y` and `y` expands back to the placeholder
of `x` fails with the cyclic-reference error; a prompt whose two distinct
placeholders `a` and `b` both expand through the same key `y` (no mutual
reference) resolves without raising. -/
theorem recursive_format_cycle_policy :
    (∀ x y : String, x ≠ y → x ≠ "" → y ≠ "" →
      braceFreeB x = true → braceFreeB y = true →
      recursive_format []
        [(x, PValue.s ("\x7b" ++ y ++ "\x7d")), (y, PValue.s ("\x7b" ++ x ++ "\x7d"))]
        ("\x7b" ++ x ++ "\x7d") =
      Except.error (PromptError.valueError
        ("Cyclic reference detected for placeholder: " ++ x))) ∧
    (∀ a b y v : String, a ≠ b → a ≠ y → b ≠ y → a ≠ "" → b ≠ "" → y ≠ "" →
      braceFreeB a = true → braceFreeB b = true → braceFreeB y = true →
      braceFreeB v = true → v ≠ a → v ≠ b → v ≠ y →
      recursive_format []
        [(a, PValue.s ("\x7b" ++ y ++ "\x7d")), (b, PValue.s ("\x7b" ++ y ++ "\x7d")),
         (y, PValue.s v)]
        ("\x7b" ++ a ++ "\x7d \x7b" ++ b ++ "\x7d") =
      Except.ok (v ++ " " ++ v)) := by
  constructor
  · intro x y hxy hxne hyne hx hy
    have hpx : paramsGet
        [(x, PValue.s ("\x7b" ++ y ++ "\x7d")), (y, PValue.s ("\x7b" ++ x ++ "\x7d"))] x =
        some (PValue.s ("\x7b" ++ y ++ "\x7d")) := paramsGet_cons_self _ _ _
    have hpy : paramsGet
        [(x, PValue.s ("\x7b" ++ y ++ "\x7d")), (y, PValue.s ("\x7b" ++ x ++ "\x7d"))] y =
        some (PValue.s ("\x7b" ++ x ++ "\x7d")) := by
      rw [paramsGet_cons_ne _ _ _ _ hxy, paramsGet_cons_self]
    have hwy : paramsGet
        [(x, PValue.s ("\x7b" ++ y ++ "\x7d")), (y, PValue.s ("\x7b" ++ x ++ "\x7d"))]
        ("\x7b" ++ y ++ "\x7d") = Option.none := by
      rw [paramsGet_cons_ne _ _ _ _ (fun h => braceFree_ne_wrapped y hx h.symm),
        paramsGet_cons_ne _ _ _ _ (fun h => braceFree_ne_wrapped y hy h.symm)]
      rfl
    have hwx : paramsGet
        [(x, PValue.s ("\x7b" ++ y ++ "\x7d")), (y, PValue.s ("\x7b" ++ x ++ "\x7d"))]
        ("\x7b" ++ x ++ "\x7d") = Option.none := by
      rw [paramsGet_cons_ne _ _ _ _ (fun h => braceFree_ne_wrapped x hx h.symm),
        paramsGet_cons_ne _ _ _ _ (fun h => braceFree_ne_wrapped x hy h.symm)]
      rfl
    have hrx := resolve_value_verbatim _ x _ hpx hwy
    have hry := resolve_value_verbatim _ y _ hpy hwx
    have hk3 : rfmtKeys []
        [(x, PValue.s ("\x7b" ++ y ++ "\x7d")), (y, PValue.s ("\x7b" ++ x ++ "\x7d"))]
        997 [x] [y, x] =
        Except.error (PromptError.valueError
          ("Cyclic reference detected for placeholder: " ++ x)) := by
      rw [rfmtKeys.eq_2]
      rw [if_pos (by simp : x ∈ [y, x])]
    have hg3 : rfmtGo []
        [(x, PValue.s ("\x7b" ++ y ++ "\x7d")), (y, PValue.s ("\x7b" ++ x ++ "\x7d"))]
        998 ("\x7b" ++ x ++ "\x7d") [y, x] =
        Except.error (PromptError.valueError
          ("Cyclic reference detected for placeholder: " ++ x)) := by
      rw [show (998 : Nat) = Nat.succ 997 from rfl, rfmtGo.eq_2,
        extract_single x hx hxne]
      rw [if_neg (by simp : ¬ ([x] : List String) = [])]
      rw [hk3]
    have hk2 : rfmtKeys []
        [(x, PValue.s ("\x7b" ++ y ++ "\x7d")), (y, PValue.s ("\x7b" ++ x ++ "\x7d"))]
        998 [y] [x] =
        Except.error (PromptError.valueError
          ("Cyclic reference detected for placeholder: " ++ x)) := by
      rw [rfmtKeys.eq_2]
      rw [if_neg (by simp [Ne.symm hxy] : ¬ y ∈ [x])]
      rw [hry]
      simp only [wrapped_contains, if_true, ite_true, hg3]
    have hg2 : rfmtGo []
        [(x, PValue.s ("\x7b" ++ y ++ "\x7d")), (y, PValue.s ("\x7b" ++ x ++ "\x7d"))]
        999 ("\x7b" ++ y ++ "\x7d") [x] =
        Except.error (PromptError.valueError
          ("Cyclic reference detected for placeholder: " ++ x)) := by
      rw [show (999 : Nat) = Nat.succ 998 from rfl, rfmtGo.eq_2,
        extract_single y hy hyne]
      rw [if_neg (by simp : ¬ ([y] : List String) = [])]
      rw [hk2]
    have hk1 : rfmtKeys []
        [(x, PValue.s ("\x7b" ++ y ++ "\x7d")), (y, PValue.s ("\x7b" ++ x ++ "\x7d"))]
        999 [x] [] =
        Except.error (PromptError.valueError
          ("Cyclic reference detected for placeholder: " ++ x)) := by
      rw [rfmtKeys.eq_2]
      rw [if_neg (by simp : ¬ x ∈ ([] : List String))]
      rw [hrx]
      simp only [wrapped_contains, if_true, ite_true, hg2]
    rw [recursive_format, show (1000 : Nat) = Nat.succ 999 from rfl, rfmtGo.eq_2,
      extract_single x hx hxne]
    rw [if_neg (by simp : ¬ ([x] : List String) = [])]
    rw [hk1]
  · intro a b y v hab hay hby hane hbne hyne ha hb hy hv hva hvb hvy
    have hpa : paramsGet
        [(a, PValue.s ("\x7b" ++ y ++ "\x7d")), (b, PValue.s ("\x7b" ++ y ++ "\x7d")),
         (y, PValue.s v)] a = some (PValue.s ("\x7b" ++ y ++ "\x7d")) :=
      paramsGet_cons_self _ _ _
    have hpb : paramsGet
        [(a, PValue.s ("\x7b" ++ y ++ "\x7d")), (b, PValue.s ("\x7b" ++ y ++ "\x7d")),
         (y, PValue.s v)] b = some (PValue.s ("\x7b" ++ y ++ "\x7d")) := by
      rw [paramsGet_cons_ne _ _ _ _ hab, paramsGet_cons_self]
    have hpy : paramsGet
        [(a, PValue.s ("\x7b" ++ y ++ "\x7d")), (b, PValue.s ("\x7b" ++ y ++ "\x7d")),
         (y, PValue.s v)] y = some (PValue.s v) := by
      rw [paramsGet_cons_ne _ _ _ _ hay, paramsGet_cons_ne _ _ _ _ hby,
        paramsGet_cons_self]
    have hwv : paramsGet
        [(a, PValue.s ("\x7b" ++ y ++ "\x7d")), (b, PValue.s ("\x7b" ++ y ++ "\x7d")),
         (y, PValue.s v)] v = Option.none := by
      rw [paramsGet_cons_ne _ _ _ _ (fun h => hva h.symm),
        paramsGet_cons_ne _ _ _ _ (fun h => hvb h.symm),
        paramsGet_cons_ne _ _ _ _ (fun h => hvy h.symm)]
      rfl
    have hwy : paramsGet
        [(a, PValue.s ("\x7b" ++ y ++ "\x7d")), (b, PValue.s ("\x7b" ++ y ++ "\x7d")),
         (y, PValue.s v)] ("\x7b" ++ y ++ "\x7d") = Option.none := by
      rw [paramsGet_cons_ne _ _ _ _ (fun h => braceFree_ne_wrapped y ha h.symm),
        paramsGet_cons_ne _ _ _ _ (fun h => braceFree_ne_wrapped y hb h.symm),
        paramsGet_cons_ne _ _ _ _ (fun h => braceFree_ne_wrapped y hy h.symm)]
      rfl
    have hra := resolve_value_verbatim _ a _ hpa hwy
    have hrb := resolve_value_verbatim _ b _ hpb hwy
    have hryv := resolve_value_verbatim _ y _ hpy hwv
    have hky : ∀ seen1 : String, ¬ y = seen1 → rfmtKeys []
        [(a, PValue.s ("\x7b" ++ y ++ "\x7d")), (b, PValue.s ("\x7b" ++ y ++ "\x7d")),
         (y, PValue.s v)] 998 [y] [seen1] = Except.ok [(y, PValue.s v)] := by
      intro seen1 hys
      rw [rfmtKeys.eq_2]
      rw [if_neg (by simp [hys] : ¬ y ∈ [seen1])]
      rw [hryv]
      simp only [braceFree_not_contains hv, Bool.false_eq_true, if_false, ite_false,
        reduceIte]
      rw [rfmtKeys.eq_1]
    have hgy : ∀ seen1 : String, ¬ y = seen1 → rfmtGo []
        [(a, PValue.s ("\x7b" ++ y ++ "\x7d")), (b, PValue.s ("\x7b" ++ y ++ "\x7d")),
         (y, PValue.s v)] 999 ("\x7b" ++ y ++ "\x7d") [seen1] = Except.ok v := by
      intro seen1 hys
      rw [show (999 : Nat) = Nat.succ 998 from rfl, rfmtGo.eq_2,
        extract_single y hy hyne]
      rw [if_neg (by simp : ¬ ([y] : List String) = [])]
      rw [hky seen1 hys]
      show Except.ok (formatMap ("\x7b" ++ y ++ "\x7d") [(y, PValue.s v)]) =
        Except.ok v
      rw [formatMap_single y hy hyne (PValue.s v)]
      rfl
    have hkab : rfmtKeys []
        [(a, PValue.s ("\x7b" ++ y ++ "\x7d")), (b, PValue.s ("\x7b" ++ y ++ "\x7d")),
         (y, PValue.s v)] 999 [a, b] [] =
        Except.ok [(a, PValue.s v), (b, PValue.s v)] := by
      rw [rfmtKeys.eq_2]
      rw [if_neg (by simp : ¬ a ∈ ([] : List String))]
      rw [hra]
      simp only [wrapped_contains, if_true, ite_true]
      rw [hgy a (fun h => hay h.symm)]
      rw [rfmtKeys.eq_2]
      rw [if_neg (by simp : ¬ b ∈ ([] : List String))]
      rw [hrb]
      simp only [wrapped_contains, if_true, ite_true]
      rw [hgy b (fun h => hby h.symm)]
      rw [rfmtKeys.eq_1]
    rw [recursive_format, show (1000 : Nat) = Nat.succ 999 from rfl, rfmtGo.eq_2,
      extract_pair a b ha hb hane hbne hab]
    rw [if_neg (by simp : ¬ ([a, b] : List String) = [])]
    rw [hkab]
    show Except.ok (formatMap ("\x7b" ++ a ++ "\x7d \x7b" ++ b ++ "\x7d")
      [(a, PValue.s v), (b, PValue.s v)]) = Except.ok (v ++ " " ++ v)
    rw [formatMap_pair a b ha hb hane hbne hab (PValue.s v) (PValue.s v)]
    rfl

/-- C4 (witness): concrete names — `alpha`/`beta` in mutual reference fail
with the cyclic error; `left` and `right` both expanding through `shared`
succeed. -/
theorem recursive_format_cycle_policy_witness :
    (("alpha" : String) ≠ "beta" ∧ braceFreeB "alpha" = true ∧
      recursive_format []
        [("alpha", PValue.s "\x7bbeta\x7d"), ("beta", PValue.s "\x7balpha\x7d")]
        "\x7balpha\x7d" =
      Except.error (PromptError.valueError
        ("Cyclic reference detected for placeholder: " ++ "alpha"))) ∧
    recursive_format []
      [("left", PValue.s "\x7bshared\x7d"), ("right", PValue.s "\x7bshared\x7d"),
       ("shared", PValue.s "done")]
      "\x7bleft\x7d \x7bright\x7d" = Except.ok ("done" ++ " " ++ "done") :=
  ⟨⟨by decide, by decide,
      recursive_format_cycle_policy.1 "alpha" "beta" (by decide) (by decide)
        (by decide) (by decide) (by decide)⟩,
    recursive_format_cycle_policy.2 "left" "right" "shared" "done" (by decide)
      (by decide) (by decide) (by decide) (by decide) (by decide) (by decide)
      (by decide) (by decide) (by decide) (by decide) (by decide) (by decide)⟩

/-- Helper: a successful repository lookup returns an issue of the batch
bearing the looked-up key. -/
theorem issue_map_spec {issues : List JiraBaseIssue} {k : String}
    {i : JiraBaseIssue} (h : issue_map issues k = some i) :
    i ∈ issues ∧ i.key = k := by
  have H : ∀ (l : List JiraBaseIssue) (acc : Option JiraBaseIssue) (j : JiraBaseIssue),
      l.foldl (fun a x => if x.key = k then some x else a) acc = some j →
      acc = some j ∨ (j ∈ l ∧ j.key = k) := by
    intro l
    induction l with
    | nil => intro acc j hf; exact Or.inl hf
    | cons x xs ih =>
      intro acc j hf
      rcases ih _ _ hf with h1 | h2
      · dsimp only at h1
        by_cases hx : x.key = k
        · rw [if_pos hx] at h1
          cases h1
          exact Or.inr ⟨List.mem_cons_self _ _, hx⟩
        · rw [if_neg hx] at h1
          exact Or.inl h1
      · exact Or.inr ⟨List.mem_cons_of_mem _ h2.1, h2.2⟩
  rcases H issues Option.none i h with h1 | h2
  · cases h1
  · exact h2

/-- Helper: the enqueue loop appends exactly the fresh link keys to the queue
and pushes the same keys onto the visited set. -/
theorem enqueueLinks_spec (links : List String) :
    ∀ queue seen : List String, ∃ news : List String,
      (enqueueLinks links queue seen).1 = queue ++ news ∧
      (enqueueLinks links queue seen).2 = news.reverse ++ seen ∧
      news.Nodup ∧
      (∀ x ∈ news, x ∈ links ∧ x ∉ seen) ∧
      (∀ x ∈ links, x ∈ news ∨ x ∈ seen) := by
  induction links with
  | nil =>
    intro queue seen
    exact ⟨[], by simp [enqueueLinks], by simp [enqueueLinks], List.nodup_nil,
      by simp, by simp⟩
  | cons k ks ih =>
    intro queue seen
    by_cases hk : k ∈ seen
    · obtain ⟨news, h1, h2, h3, h4, h5⟩ := ih queue seen
      refine ⟨news, ?_, ?_, h3, ?_, ?_⟩
      · rw [enqueueLinks, if_pos hk]; exact h1
      · rw [enqueueLinks, if_pos hk]; exact h2
      · exact fun x hx => ⟨List.mem_cons_of_mem _ (h4 x hx).1, (h4 x hx).2⟩
      · intro x hx
        rcases List.mem_cons.mp hx with rfl | hx2
        · exact Or.inr hk
        · exact h5 x hx2
    · obtain ⟨news, h1, h2, h3, h4, h5⟩ := ih (queue ++ [k]) (k :: seen)
      refine ⟨k :: news, ?_, ?_, ?_, ?_, ?_⟩
      · rw [enqueueLinks, if_neg hk, h1]
        simp
      · rw [enqueueLinks, if_neg hk, h2]
        simp
      · refine List.nodup_cons.mpr ⟨?_, h3⟩
        intro hkn
        exact (h4 k hkn).2 (List.mem_cons_self _ _)
      · intro x hx
        rcases List.mem_cons.mp hx with rfl | hx2
        · exact ⟨List.mem_cons_self _ _, hk⟩
        · obtain ⟨hin, hnot⟩ := h4 x hx2
          exact ⟨List.mem_cons_of_mem _ hin,
            fun hs => hnot (List.mem_cons_of_mem _ hs)⟩
      · intro x hx
        rcases List.mem_cons.mp hx with rfl | hx2
        · exact Or.inl (List.mem_cons_self _ _)
        · rcases h5 x hx2 with h6 | h6
          · exact Or.inl (List.mem_cons_of_mem _ h6)
          · rcases List.mem_cons.mp h6 with rfl | h7
            · exact Or.inl (List.mem_cons_self _ _)
            · exact Or.inr h7

/-- Helper: the traversal loop on an empty queue returns the accumulator. -/
theorem bfsLoop_nil (issues : List JiraBaseIssue) (seen : List String)
    (out : List JiraBaseIssue) : bfsLoop issues [] seen out = out := by
  rw [bfsLoop.eq_def]

/-- Helper: a dangling key at the front of the queue is skipped. -/
theorem bfsLoop_cons_none (issues : List JiraBaseIssue) (k : String)
    (rest seen : List String) (out : List JiraBaseIssue)
    (h : issue_map issues k = Option.none) :
    bfsLoop issues (k :: rest) seen out = bfsLoop issues rest seen out := by
  rw [bfsLoop.eq_def]
  split
  · rename_i heq
    exact absurd heq (by simp)
  · rename_i k2 rest2 heq
    injection heq with hk2 hrest2
    subst hk2
    subst hrest2
    split
    · rfl
    · rename_i i2 heq2
      rw [h] at heq2
      exact Option.noConfusion heq2

/-- Helper: a resolving key at the front of the queue is output and its links
are enqueued. -/
theorem bfsLoop_cons_some (issues : List JiraBaseIssue) (k : String)
    (rest seen : List String) (out : List JiraBaseIssue) (i : JiraBaseIssue)
    (h : issue_map issues k = some i) :
    bfsLoop issues (k :: rest) seen out =
      bfsLoop issues (enqueueLinks (linkKeys i) rest seen).1
        (enqueueLinks (linkKeys i) rest seen).2 (out ++ [i]) := by
  rw [bfsLoop.eq_def]
  split
  · rename_i heq
    exact absurd heq (by simp)
  · rename_i k2 rest2 heq
    injection heq with hk2 hrest2
    subst hk2
    subst hrest2
    split
    · rename_i heq2
      rw [h] at heq2
      exact Option.noConfusion heq2
    · rename_i i2 heq2
      rw [h] at heq2
      injection heq2 with hi2
      subst hi2
      rfl

/-- Helper: the worklist invariant of the traversal loop.  Given a queue
covered by the visited set, a duplicate-free queue, a visited set of
reachable keys whose processed part is edge-closed, and an output holding
exactly the resolvable processed keys, the loop yields the issues of an
edge-closed superset `S` of the visited set, every member reachable, with
no key output twice. -/
theorem bfsLoop_master (issues : List JiraBaseIssue) (start : String) :
    ∀ (queue seen : List String) (out : List JiraBaseIssue),
      (∀ k ∈ queue, k ∈ seen) → queue.Nodup →
      (∀ k ∈ seen, Reaches issues start k) →
      (∀ k, k ∈ seen → k ∉ queue → ∀ c, edgeStep issues k c → c ∈ seen) →
      (∀ i : JiraBaseIssue, i ∈ out ↔
        (i.key ∈ seen ∧ i.key ∉ queue ∧ issue_map issues i.key = some i)) →
      (out.map JiraBaseIssue.key).Nodup →
      ∃ S : List String,
        (∀ x ∈ seen, x ∈ S) ∧
        (∀ x ∈ S, Reaches issues start x) ∧
        (∀ a ∈ S, ∀ c, edgeStep issues a c → c ∈ S) ∧
        (∀ i : JiraBaseIssue, i ∈ bfsLoop issues queue seen out ↔
          (i.key ∈ S ∧ issue_map issues i.key = some i)) ∧
        ((bfsLoop issues queue seen out).map JiraBaseIssue.key).Nodup := by
  intro queue seen out
  induction queue, seen, out using bfsLoop.induct issues with
  | case1 seen out =>
    intro _ _ hreach hclosed hout houtnd
    refine ⟨seen, fun x hx => hx, hreach, ?_, ?_, ?_⟩
    · intro a ha c hc
      exact hclosed a ha (List.not_mem_nil a) c hc
    · intro i
      rw [bfsLoop_nil, hout i]
      simp
    · rw [bfsLoop_nil]
      exact houtnd
  | case2 seen out k rest hmap ih =>
    intro hqs hnd hreach hclosed hout houtnd
    have hqs' : ∀ j ∈ rest, j ∈ seen := fun j hj => hqs j (List.mem_cons_of_mem _ hj)
    have hnd' : rest.Nodup := (List.nodup_cons.mp hnd).2
    have hknr : k ∉ rest := (List.nodup_cons.mp hnd).1
    have hclosed' : ∀ j, j ∈ seen → j ∉ rest → ∀ c, edgeStep issues j c → c ∈ seen := by
      intro j hj hjr c hc
      by_cases hjk : j = k
      · subst hjk
        obtain ⟨i2, hi2, _⟩ := hc
        rw [hmap] at hi2
        exact Option.noConfusion hi2
      · exact hclosed j hj (by simp [hjk, hjr]) c hc
    have hout' : ∀ i : JiraBaseIssue, i ∈ out ↔
        (i.key ∈ seen ∧ i.key ∉ rest ∧ issue_map issues i.key = some i) := by
      intro i
      rw [hout i]
      constructor
      · rintro ⟨h1, h2, h3⟩
        exact ⟨h1, fun hr => h2 (List.mem_cons_of_mem _ hr), h3⟩
      · rintro ⟨h1, h2, h3⟩
        refine ⟨h1, ?_, h3⟩
        intro hm
        rcases List.mem_cons.mp hm with hk2 | hk2
        · rw [hk2] at h3
          rw [hmap] at h3
          exact Option.noConfusion h3
        · exact h2 hk2
    obtain ⟨S, hS1, hS2, hS3, hS4, hS5⟩ := ih hqs' hnd' hreach hclosed' hout' houtnd
    refine ⟨S, hS1, hS2, hS3, ?_, ?_⟩
    · intro i
      rw [bfsLoop_cons_none issues k rest seen out hmap]
      exact hS4 i
    · rw [bfsLoop_cons_none issues k rest seen out hmap]
      exact hS5
  | case3 seen out k rest i hmap qs ih =>
    intro hqs hnd hreach hclosed hout houtnd
    obtain ⟨news, he1, he2, he3, he4, he5⟩ := enqueueLinks_spec (linkKeys i) rest seen
    have hik : i.key = k := (issue_map_spec hmap).2
    have hkseen : k ∈ seen := hqs k (List.mem_cons_self _ _)
    have hknr : k ∉ rest := (List.nodup_cons.mp hnd).1
    have hrest_seen : ∀ j ∈ rest, j ∈ seen :=
      fun j hj => hqs j (List.mem_cons_of_mem _ hj)
    have hndrest : rest.Nodup := (List.nodup_cons.mp hnd).2
    have hmem_s2 : ∀ x, x ∈ (enqueueLinks (linkKeys i) rest seen).2 ↔
        (x ∈ news ∨ x ∈ seen) := by
      intro x
      rw [he2]
      simp
    have hmem_q2 : ∀ x, x ∈ (enqueueLinks (linkKeys i) rest seen).1 ↔
        (x ∈ rest ∨ x ∈ news) := by
      intro x
      rw [he1]
      simp
    have I1 : ∀ j ∈ (enqueueLinks (linkKeys i) rest seen).1,
        j ∈ (enqueueLinks (linkKeys i) rest seen).2 := by
      intro j hj
      rw [hmem_q2] at hj
      rw [hmem_s2]
      rcases hj with hj | hj
      · exact Or.inr (hrest_seen j hj)
      · exact Or.inl hj
    have I2 : (enqueueLinks (linkKeys i) rest seen).1.Nodup := by
      rw [he1]
      refine List.Nodup.append hndrest he3 ?_
      intro a ha hna
      exact (he4 a hna).2 (hrest_seen a ha)
    have I3 : ∀ x ∈ (enqueueLinks (linkKeys i) rest seen).2,
        Reaches issues start x := by
      intro x hx
      rw [hmem_s2] at hx
      rcases hx with hx | hx
      · exact Reaches.tail (hreach k hkseen) ⟨i, hmap, (he4 x hx).1⟩
      · exact hreach x hx
    have I4 : ∀ j, j ∈ (enqueueLinks (linkKeys i) rest seen).2 →
        j ∉ (enqueueLinks (linkKeys i) rest seen).1 →
        ∀ c, edgeStep issues j c → c ∈ (enqueueLinks (linkKeys i) rest seen).2 := by
      intro j hj hjq c hc
      rw [hmem_s2] at hj
      rw [hmem_s2]
      rcases hj with hj | hj
      · exact absurd ((hmem_q2 j).mpr (Or.inr hj)) hjq
      · by_cases hjk : j = k
        · subst hjk
          obtain ⟨i2, hi2, hlk⟩ := hc
          rw [hmap] at hi2
          injection hi2 with hi2e
          subst hi2e
          exact he5 c hlk
        · have hjrest : j ∉ rest := fun hr => hjq ((hmem_q2 j).mpr (Or.inl hr))
          exact Or.inr (hclosed j hj (by simp [hjk, hjrest]) c hc)
    have I5 : ∀ j : JiraBaseIssue, j ∈ out ++ [i] ↔
        (j.key ∈ (enqueueLinks (linkKeys i) rest seen).2 ∧
         j.key ∉ (enqueueLinks (linkKeys i) rest seen).1 ∧
         issue_map issues j.key = some j) := by
      intro j
      rw [List.mem_append, List.mem_singleton]
      constructor
      · rintro (hj | rfl)
        · obtain ⟨h1, h2, h3⟩ := (hout j).mp hj
          refine ⟨(hmem_s2 _).mpr (Or.inr h1), ?_, h3⟩
          intro hq
          rw [hmem_q2] at hq
          rcases hq with hq | hq
          · exact h2 (List.mem_cons_of_mem _ hq)
          · exact (he4 _ hq).2 h1
        · refine ⟨(hmem_s2 _).mpr (Or.inr (hik ▸ hkseen)), ?_, ?_⟩
          · intro hq
            rw [hmem_q2] at hq
            rcases hq with hq | hq
            · exact hknr (hik ▸ hq)
            · exact (he4 _ hq).2 (hik ▸ hkseen)
          · rw [hik]
            exact hmap
      · rintro ⟨h1, h2, h3⟩
        rw [hmem_s2] at h1
        have hkseen2 : j.key ∈ seen := by
          rcases h1 with h1 | h1
          · exact absurd ((hmem_q2 _).mpr (Or.inr h1)) h2
          · exact h1
        have hjrest : j.key ∉ rest := fun hr => h2 ((hmem_q2 _).mpr (Or.inl hr))
        by_cases hjk : j.key = k
        · right
          rw [hjk, hmap] at h3
          injection h3 with h3e
          exact h3e.symm
        · left
          exact (hout j).mpr ⟨hkseen2, by simp [hjk, hjrest], h3⟩
    have I6 : ((out ++ [i]).map JiraBaseIssue.key).Nodup := by
      rw [List.map_append]
      refine List.Nodup.append houtnd (by simp) ?_
      intro a ha hai
      simp only [List.map_cons, List.map_nil, List.mem_singleton] at hai
      simp only [List.mem_map] at ha
      obtain ⟨j, hj, hjkey⟩ := ha
      have h2 := ((hout j).mp hj).2.1
      apply h2
      rw [hjkey, hai, hik]
      exact List.mem_cons_self _ _
    obtain ⟨S, hS1, hS2, hS3, hS4, hS5⟩ := ih I1 I2 I3 I4 I5 I6
    refine ⟨S, ?_, hS2, hS3, ?_, ?_⟩
    · intro x hx
      exact hS1 x ((hmem_s2 x).mpr (Or.inr hx))
    · intro j
      rw [bfsLoop_cons_some issues k rest seen out i hmap]
      exact hS4 j
    · rw [bfsLoop_cons_some issues k rest seen out i hmap]
      exact hS5

/-- C1: for a starting key present in the repository, `get_connected_issues`
(total by construction — its traversal terminates on every batch, cyclic
parent/subtask links included) returns the issues of exactly the keys
reachable from the start along parent/subtask edges, strictly sorted by
issue key ascending, each issue occurring exactly once. -/
theorem get_connected_issues_bfs_correct (issues : List JiraBaseIssue) (key : String)
    (h : issue_map issues key ≠ Option.none) :
    ∃ result, get_connected_issues issues key = Except.ok result ∧
      List.Pairwise (fun a b : JiraBaseIssue => a.key < b.key) result ∧
      (∀ i : JiraBaseIssue, i ∈ result ↔
        (Reaches issues key i.key ∧ issue_map issues i.key = some i)) ∧
      (∀ i ∈ result, result.count i = 1) := by
  cases hm : issue_map issues key with
  | none => exact absurd hm h
  | some i0 =>
    have hik : i0.key = key := (issue_map_spec hm).2
    have hgci : get_connected_issues issues key =
        Except.ok (List.insertionSort keyLe (bfsLoop issues [key] [key] [])) := by
      simp [get_connected_issues, get_issue_by_key, hm, hik, Bind.bind, Except.bind]
    obtain ⟨S, hS1, hS2, hS3, hS4, hS5⟩ := bfsLoop_master issues key [key] [key] []
      (fun j hj => hj)
      (by simp)
      (by
        intro j hj
        rw [List.mem_singleton] at hj
        subst hj
        exact Reaches.refl)
      (by
        intro j hj hnj
        exact absurd hj hnj)
      (by
        intro j
        constructor
        · intro hj
          cases hj
        · rintro ⟨h1, h2, _⟩
          exact absurd h1 h2)
      (by simp)
    have hSreach : ∀ x, x ∈ S ↔ Reaches issues key x := by
      intro x
      constructor
      · exact hS2 x
      · intro hr
        induction hr with
        | refl => exact hS1 key (List.mem_cons_self _ _)
        | tail hrb he ih2 => exact hS3 _ ih2 _ he
    have hperm := List.perm_insertionSort keyLe (bfsLoop issues [key] [key] [])
    have hsorted := List.sorted_insertionSort keyLe (bfsLoop issues [key] [key] [])
    have hkeysnd : ((List.insertionSort keyLe (bfsLoop issues [key] [key] [])).map
        JiraBaseIssue.key).Nodup :=
      ((hperm.map JiraBaseIssue.key).nodup_iff).mpr hS5
    have hne : List.Pairwise (fun a b : JiraBaseIssue => a.key ≠ b.key)
        (List.insertionSort keyLe (bfsLoop issues [key] [key] [])) :=
      List.pairwise_map.mp hkeysnd
    have hpw : List.Pairwise (fun a b : JiraBaseIssue => a.key < b.key)
        (List.insertionSort keyLe (bfsLoop issues [key] [key] [])) :=
      (hsorted.and hne).imp (fun hab => lt_of_le_of_ne hab.1 hab.2)
    refine ⟨List.insertionSort keyLe (bfsLoop issues [key] [key] []), hgci, hpw, ?_, ?_⟩
    · intro j
      rw [hperm.mem_iff, hS4 j, hSreach j.key]
    · intro j hj
      have hndup : (List.insertionSort keyLe (bfsLoop issues [key] [key] [])).Nodup :=
        hpw.imp (fun hab he => by rw [he] at hab; exact lt_irrefl _ hab)
      exact List.count_eq_one_of_mem hndup hj

/-- C1 (witness): the cyclic pair — "A" has parent "B" and "B" has parent
"A" — still terminates and yields both issues. -/
theorem get_connected_issues_bfs_correct_witness :
    issue_map [cycIssueA, cycIssueB] "A" ≠ Option.none ∧
    (∃ result, get_connected_issues [cycIssueA, cycIssueB] "A" = Except.ok result ∧
      List.Pairwise (fun a b : JiraBaseIssue => a.key < b.key) result ∧
      (∀ i : JiraBaseIssue, i ∈ result ↔
        (Reaches [cycIssueA, cycIssueB] "A" i.key ∧
          issue_map [cycIssueA, cycIssueB] i.key = some i)) ∧
      (∀ i ∈ result, result.count i = 1)) :=
  ⟨by decide, get_connected_issues_bfs_correct [cycIssueA, cycIssueB] "A" (by decide)⟩
